import Mathlib

/-!
# chrono-fns — verification of the natural-language date resolution engine

Shallow embedding of the repository's calendar math (`src/core`, `src/utils`)
and phrase resolver (`src/nlp`).  The host JavaScript `Date` object is modelled
as an integer count of milliseconds since the Unix epoch, with the ECMA-262
field functions (YearFromTime, MonthFromTime, MakeDay, MakeDate, ...) realised
over the proleptic Gregorian calendar.  The model is idealized to unbounded
integers (no IEEE-754 rounding, no ±8.64e15 time-value clamp) and a fixed
UTC-like local zone with no DST, which is the abstraction level of the spec.
Strings are modelled as `List Char`; the anchored regular expressions of the
resolver are implemented directly as matching functions with the same
backtracking behaviour.
-/

namespace ChronoFns

/-- Leap year test of the proleptic Gregorian calendar (ECMA-262 DaysInYear). -/
def isLeap (y : Int) : Bool :=
  (y % 4 == 0 && y % 100 != 0) || y % 400 == 0

/-- Number of days in year `y`. -/
def daysInYear (y : Int) : Int := if isLeap y then 366 else 365

/-- Day number (days since 1970-01-01) of January 1 of year `y` (ECMA DayFromYear). -/
def yearStartDay (y : Int) : Int :=
  365 * y + ((y + 3) / 4 - (y + 99) / 100 + (y + 399) / 400) - 719528

/-- Cumulative days before month `m` (0 = January) in a non-leap year. -/
def monthStartBase (m : Int) : Int :=
  if m ≤ 0 then 0 else if m = 1 then 31 else if m = 2 then 59 else if m = 3 then 90
  else if m = 4 then 120 else if m = 5 then 151 else if m = 6 then 181 else if m = 7 then 212
  else if m = 8 then 243 else if m = 9 then 273 else if m = 10 then 304 else 334

/-- Cumulative days before month `m` (0-based), leap-aware. -/
def monthStart (leap : Bool) (m : Int) : Int :=
  monthStartBase m + (if leap then (if 2 ≤ m then 1 else 0) else 0)

/-- Number of days in month `m` (0-based) of a year with leapness `leap`. -/
def daysInMonth (leap : Bool) (m : Int) : Int :=
  if m = 1 then (if leap then 29 else 28)
  else if m = 3 ∨ m = 5 ∨ m = 8 ∨ m = 10 then 30 else 31

/-- Month and day-of-month from a day-of-year `doy` (0-based), with the
cumulative month boundaries of ECMA MonthFromTime / DateFromTime (`ilp` is
InLeapYear). -/
def ilp (leap : Bool) : Int := if leap then 1 else 0

def monthDayFromDoy (leap : Bool) (doy : Int) : Int × Int :=
  if doy < 31 then (0, doy + 1)
  else if doy < 59 + ilp leap then (1, doy - 31 + 1)
  else if doy < 90 + ilp leap then (2, doy - (59 + ilp leap) + 1)
  else if doy < 120 + ilp leap then (3, doy - (90 + ilp leap) + 1)
  else if doy < 151 + ilp leap then (4, doy - (120 + ilp leap) + 1)
  else if doy < 181 + ilp leap then (5, doy - (151 + ilp leap) + 1)
  else if doy < 212 + ilp leap then (6, doy - (181 + ilp leap) + 1)
  else if doy < 243 + ilp leap then (7, doy - (212 + ilp leap) + 1)
  else if doy < 273 + ilp leap then (8, doy - (243 + ilp leap) + 1)
  else if doy < 304 + ilp leap then (9, doy - (273 + ilp leap) + 1)
  else if doy < 334 + ilp leap then (10, doy - (304 + ilp leap) + 1)
  else (11, doy - (334 + ilp leap) + 1)

/-- Fuel-driven upward year scan: starting at year `y`, locate the year
containing the day `n` days after the start of `y`.  The fuel is a structural
bound so the definition computes in the kernel; `n + 1` fuel always suffices. -/
def yearUpF : Nat → Int → Nat → Int × Int
  | 0, y, n => (y, (n : Int))
  | fuel + 1, y, n =>
      if n < (daysInYear y).toNat then (y, (n : Int))
      else yearUpF fuel (y + 1) (n - (daysInYear y).toNat)

/-- Fuel-driven downward year scan: locate the year containing the day `n`
days before the start of year `y` (`n ≥ 1`). -/
def yearDownF : Nat → Int → Nat → Int × Int
  | 0, y, _ => (y, 0)
  | fuel + 1, y, n =>
      let d := (daysInYear (y - 1)).toNat
      if n ≤ d then (y - 1, ((d - n : Nat) : Int)) else yearDownF fuel (y - 1) (n - d)

/-- Year and 0-based day-of-year containing epoch day `z` (ECMA YearFromTime /
DayWithinYear). -/
def yearDoyOfDay (z : Int) : Int × Int :=
  if 0 ≤ z then yearUpF (z.toNat + 1) 1970 z.toNat
  else yearDownF (-z).toNat 1970 (-z).toNat

/-- Calendar fields (year, month 0-based, day-of-month 1-based) of epoch day `z`. -/
def civilOfDay (z : Int) : Int × Int × Int :=
  let p := yearDoyOfDay z
  let q := monthDayFromDoy (isLeap p.1) p.2
  (p.1, q.1, q.2)

/-- ECMA MakeDay: epoch day of (year, month, day), with month carried into the
year and the day unconstrained (out-of-range days roll over linearly). -/
def mkDay (y m d : Int) : Int :=
  let y2 := y + m / 12
  let m2 := m % 12
  yearStartDay y2 + monthStart (isLeap y2) m2 + (d - 1)

/-- ECMA Day: epoch day of a time value. -/
def eday (t : Int) : Int := t / 86400000

/-- ECMA TimeWithinDay. -/
def tms (t : Int) : Int := t % 86400000

/-- JS `Date.prototype.getFullYear` (UTC model). -/
def getFullYear (t : Int) : Int := (civilOfDay (eday t)).1

/-- JS `getMonth` (0-based). -/
def getMonth (t : Int) : Int := (civilOfDay (eday t)).2.1

/-- JS `getDate` (1-based day of month). -/
def getDate (t : Int) : Int := (civilOfDay (eday t)).2.2

/-- JS `getDay` (0 = Sunday); ECMA WeekDay(t) = (Day(t) + 4) modulo 7. -/
def getDay (t : Int) : Int := (eday t + 4) % 7

/-- JS `getHours`. -/
def getHours (t : Int) : Int := (t / 3600000) % 24

/-- JS `getMinutes`. -/
def getMinutes (t : Int) : Int := (t / 60000) % 60

/-- JS `getSeconds`. -/
def getSeconds (t : Int) : Int := (t / 1000) % 60

/-- JS `getMilliseconds`. -/
def getMilliseconds (t : Int) : Int := t % 1000

/-- ECMA MakeTime. -/
def mkTime (h m s ms : Int) : Int := h * 3600000 + m * 60000 + s * 1000 + ms

/-- ECMA MakeDate. -/
def mkDate (day time : Int) : Int := day * 86400000 + time

/-- JS `setHours(h, m, s, ms)` on a copy. -/
def setHoursF (t h m s ms : Int) : Int := mkDate (eday t) (mkTime h m s ms)

/-- JS `setMilliseconds(v)`. -/
def setMillisecondsF (t v : Int) : Int :=
  mkDate (eday t) (mkTime (getHours t) (getMinutes t) (getSeconds t) v)

/-- JS `setSeconds(v)`. -/
def setSecondsF (t v : Int) : Int :=
  mkDate (eday t) (mkTime (getHours t) (getMinutes t) v (getMilliseconds t))

/-- JS `setMinutes(v)`. -/
def setMinutesF (t v : Int) : Int :=
  mkDate (eday t) (mkTime (getHours t) v (getSeconds t) (getMilliseconds t))

/-- JS `setHours(v)` with a single argument. -/
def setHoursOnlyF (t v : Int) : Int :=
  mkDate (eday t) (mkTime v (getMinutes t) (getSeconds t) (getMilliseconds t))

/-- JS `setDate(v)`. -/
def setDateF (t v : Int) : Int := mkDate (mkDay (getFullYear t) (getMonth t) v) (tms t)

/-- JS `setMonth(v)`. -/
def setMonthF (t v : Int) : Int := mkDate (mkDay (getFullYear t) v (getDate t)) (tms t)

/-- JS `setMonth(v, d)` with an explicit day argument. -/
def setMonthDayF (t v d : Int) : Int := mkDate (mkDay (getFullYear t) v d) (tms t)

/-- JS `setFullYear(v)`. -/
def setFullYearF (t v : Int) : Int := mkDate (mkDay v (getMonth t) (getDate t)) (tms t)

/-- TimeUnit from `src/types.ts`. -/
inductive TimeUnit
  | millisecond | second | minute | hour | day | week | month | year
deriving DecidableEq, Repr

/-- The `add` function of `src/utils/index.ts`: each branch mirrors the
`setX(getX() + amount)` call of the source. -/
def add (t amount : Int) : TimeUnit → Int
  | .millisecond => setMillisecondsF t (getMilliseconds t + amount)
  | .second => setSecondsF t (getSeconds t + amount)
  | .minute => setMinutesF t (getMinutes t + amount)
  | .hour => setHoursOnlyF t (getHours t + amount)
  | .day => setDateF t (getDate t + amount)
  | .week => setDateF t (getDate t + amount * 7)
  | .month => setMonthF t (getMonth t + amount)
  | .year => setFullYearF t (getFullYear t + amount)

/-- The `subtract` function of `src/utils/index.ts`. -/
def subtract (t amount : Int) (u : TimeUnit) : Int := add t (-amount) u

/-- The `differenceIn` function of `src/core/index.ts`.  `Math.floor` of a
division by a positive constant is `Int.ediv`. -/
def differenceIn (a b : Int) : TimeUnit → Int
  | .millisecond => a - b
  | .second => (a - b) / 1000
  | .minute => (a - b) / 60000
  | .hour => (a - b) / 3600000
  | .day => (a - b) / 86400000
  | .week => (a - b) / 604800000
  | .month => (getFullYear a - getFullYear b) * 12 + (getMonth a - getMonth b)
  | .year => getFullYear a - getFullYear b

/-- The `startOfDay` function of `src/utils/index.ts`. -/
def startOfDay (t : Int) : Int := setHoursF t 0 0 0 0

/-- The `endOfDay` function of `src/utils/index.ts`. -/
def endOfDay (t : Int) : Int := setHoursF t 23 59 59 999

/-- The `startOfWeek` function of `src/utils/index.ts` (`ws` = weekStartsOn). -/
def startOfWeek (t ws : Int) : Int :=
  let r := startOfDay t
  let day := getDay r
  let diff := (if day < ws then 7 else 0) + day - ws
  setDateF r (getDate r - diff)

/-- The `endOfWeek` function of `src/utils/index.ts`. -/
def endOfWeek (t ws : Int) : Int :=
  let r := startOfWeek t ws
  endOfDay (setDateF r (getDate r + 6))

/-- The `startOfMonth` function of `src/utils/index.ts`. -/
def startOfMonth (t : Int) : Int := startOfDay (setDateF t 1)

/-- The `endOfMonth` function of `src/utils/index.ts`
(`setMonth(getMonth() + 1, 0)` then `endOfDay`). -/
def endOfMonth (t : Int) : Int := endOfDay (setMonthDayF t (getMonth t + 1) 0)

/-- The `today()` function of `src/core/index.ts`: the system clock (`sysNow`)
at midnight.  Note it reads the clock, not any supplied reference date. -/
def todayF (sysNow : Int) : Int := startOfDay sysNow

/-- The `tomorrow()` function of `src/core/index.ts`. -/
def tomorrowF (sysNow : Int) : Int :=
  setDateF (todayF sysNow) (getDate (todayF sysNow) + 1)

/-- The `yesterday()` function of `src/core/index.ts`. -/
def yesterdayF (sysNow : Int) : Int :=
  setDateF (todayF sysNow) (getDate (todayF sysNow) - 1)

/-! ## String model and the phrase resolver (`src/nlp/index.ts`)

Strings are `List Char`.  JS `\\s` and `String.prototype.trim` are modelled on
the ASCII whitespace characters (the resolver's phrases are ASCII).  Regular
expressions are implemented as direct matching functions; greedy `\\s+` runs
are taken maximally, which is equivalent to the regex semantics here because
every token following a whitespace run starts with a non-whitespace character.
`input.replace(match[0], ...)` removes the first occurrence of `match[0]`;
since every pattern is anchored at the start, `match[0]` is a prefix of the
input and the first occurrence is at position 0, so removal is `List.drop`. -/

def strL (s : String) : List Char := s.data

def isWsChar (c : Char) : Bool :=
  c == ' ' || c == '\t' || c == '\n' || c == '\r' || c == '\x0b' || c == '\x0c'

def isDigitChar (c : Char) : Bool := '0' ≤ c && c ≤ '9'

def digitVal (c : Char) : Nat := c.toNat - 48

def digitsVal (ds : List Char) : Nat := ds.foldl (fun a c => 10 * a + digitVal c) 0

def trimL (l : List Char) : List Char := l.dropWhile isWsChar

def trimR (l : List Char) : List Char := (l.reverse.dropWhile isWsChar).reverse

def trimWs (l : List Char) : List Char := trimR (trimL l)

def lowerStr (l : List Char) : List Char := l.map Char.toLower

/-- NLPParseResult from `src/types.ts` (`date : Date | null` as `Option Int`). -/
structure NLPParseResult where
  date : Option Int
  confidence : Rat
  matched : List Char
  remaining : List Char
deriving DecidableEq, Repr

/-- ParseOptions from `src/types.ts`. -/
structure ParseOptions where
  defaultDate : Option Int
  strict : Bool
deriving DecidableEq, Repr

/-- The result every recognizer returns when its pattern does not match. -/
def noMatch (input : List Char) : NLPParseResult :=
  { date := none, confidence := 0, matched := [], remaining := input }

/-- `match[0]` of the anchored pattern `^<kw>(?:\\s+|$)`: the keyword plus the
greedy whitespace run following it, or `none` when the pattern fails. -/
def kwMatch (kw input : List Char) : Option (List Char) :=
  if kw.isPrefixOf input then
    let rest := input.drop kw.length
    match rest with
    | [] => some kw
    | c :: _ => if isWsChar c then some (kw ++ rest.takeWhile isWsChar) else none
  else none

/-- The three keyword patterns of `parseRelativeKeywords`, tried in source
order; each yields `match[0]` and the date its `fn` produces.  `today()`,
`tomorrow()` and `yesterday()` read the system clock (`sysNow`). -/
def kwAlt (sysNow : Int) (input : List Char) : Option (List Char × Int) :=
  match kwMatch (strL ("today")) input with
  | some m0 => some (m0, todayF sysNow)
  | none =>
  match kwMatch (strL ("now")) input with
  | some m0 => some (m0, todayF sysNow)
  | none =>
  match kwMatch (strL ("tomorrow")) input with
  | some m0 => some (m0, tomorrowF sysNow)
  | none =>
  match kwMatch (strL ("yesterday")) input with
  | some m0 => some (m0, yesterdayF sysNow)
  | none => none

/-- The `parseRelativeKeywords` recognizer of `src/nlp/index.ts`.  Note the
source ignores its `defaultDate` parameter here: the dates come from
`today()/tomorrow()/yesterday()` which read the system clock. -/
def parseRelativeKeywords (sysNow : Int) (input : List Char) : NLPParseResult :=
  match kwAlt sysNow input with
  | some (m0, d) =>
      { date := some d, confidence := mkRat 19 20,
        matched := trimWs m0, remaining := trimWs (input.drop m0.length) }
  | none => noMatch input

/-- The eight unit base words, in the alternation order of the offset regex. -/
def unitWords : List (List Char) :=
  [strL ("millisecond"), strL ("second"), strL ("minute"), strL ("hour"),
   strL ("day"), strL ("week"), strL ("month"), strL ("year")]

/-- Continuation `(?:\\s+(?:from\\s+now|ahead))?$` of the future offset
pattern. -/
def fromNowOk (r : List Char) : Bool :=
  (strL ("from")).isPrefixOf r &&
  (match r.drop 4 with
   | [] => false
   | c2 :: _ => isWsChar c2 && ((r.drop 4).dropWhile isWsChar == strL ("now")))

def tailFutureOk (l : List Char) : Bool :=
  match l with
  | [] => true
  | c :: _ =>
      isWsChar c &&
      (fromNowOk (l.dropWhile isWsChar) || l.dropWhile isWsChar == strL ("ahead"))

/-- Continuation `\\s+ago$` of the past offset pattern. -/
def tailPastOk (l : List Char) : Bool :=
  match l with
  | [] => false
  | c :: _ => isWsChar c && (l.dropWhile isWsChar == strL ("ago"))

/-- Regex alternation over the unit words with the optional plural `s` taken
greedily, backtracking through the remaining alternatives; returns the
captured unit group (`match[2]`). -/
def unitScan (tail : List Char → Bool) (r : List Char) :
    List (List Char) → Option (List Char)
  | [] => none
  | w :: ws =>
      if w.isPrefixOf r then
        let rest := r.drop w.length
        if (match rest with | 's' :: rest2 => tail rest2 | _ => false) then
          some (w ++ [ 's' ])
        else if tail rest then some w
        else unitScan tail r ws
      else unitScan tail r ws

/-- Shared body `(\\d+)\\s+(<units>)<tail>` of the two offset patterns;
returns the captured amount and unit strings. -/
def offsetCore (tail : List Char → Bool) (l : List Char) : Option (Nat × List Char) :=
  let ds := l.takeWhile isDigitChar
  if ds.isEmpty then none
  else
    let r1 := l.drop ds.length
    match r1 with
    | [] => none
    | c :: _ =>
        if isWsChar c then
          match unitScan tail (r1.dropWhile isWsChar) unitWords with
          | some u => some (digitsVal ds, u)
          | none => none
        else none

/-- The future offset pattern with its optional `(?:in\\s+)?` prefix
(backtracking to the prefix-less reading when the prefixed one fails). -/
def futureMatch (l : List Char) : Option (Nat × List Char) :=
  if (strL ("in")).isPrefixOf l then
    match l.drop 2 with
    | c :: _ =>
        if isWsChar c then
          match offsetCore tailFutureOk ((l.drop 2).dropWhile isWsChar) with
          | some res => some res
          | none => offsetCore tailFutureOk l
        else offsetCore tailFutureOk l
    | [] => offsetCore tailFutureOk l
  else offsetCore tailFutureOk l

def pastMatch (l : List Char) : Option (Nat × List Char) :=
  offsetCore tailPastOk l

/-- The `normalizeTimeUnit` function of `src/nlp/index.ts`: lower-case, strip
one trailing `s`, then switch over the eight spellings; `none` models the
`throw` of the default branch. -/
def normalizeTimeUnit (u : List Char) : Option TimeUnit :=
  let n0 := (lowerStr u).reverse
  let n := match n0 with | 's' :: r => r.reverse | _ => n0.reverse
  if n == strL ("millisecond") then some .millisecond
  else if n == strL ("second") then some .second
  else if n == strL ("minute") then some .minute
  else if n == strL ("hour") then some .hour
  else if n == strL ("day") then some .day
  else if n == strL ("week") then some .week
  else if n == strL ("month") then some .month
  else if n == strL ("year") then some .year
  else none

/-- The `parseRelativeTime` recognizer; `none` models the exception that the
`throw` branch of `normalizeTimeUnit` would raise. -/
def parseRelativeTime (defaultDate : Int) (input : List Char) :
    Option NLPParseResult :=
  match futureMatch input with
  | some (amount, ustr) =>
      match normalizeTimeUnit ustr with
      | some u =>
          some { date := some (add defaultDate (amount : Int) u),
                 confidence := mkRat 9 10, matched := input, remaining := [] }
      | none => none
  | none =>
      match pastMatch input with
      | some (amount, ustr) =>
          match normalizeTimeUnit ustr with
          | some u =>
              some { date := some (subtract defaultDate (amount : Int) u),
                     confidence := mkRat 9 10, matched := input, remaining := [] }
          | none => none
      | none => some (noMatch input)

def weekdayNames : List (List Char) :=
  [strL ("sunday"), strL ("monday"), strL ("tuesday"), strL ("wednesday"),
   strL ("thursday"), strL ("friday"), strL ("saturday")]

def modifierNames : List (List Char) := [strL ("next"), strL ("last"), strL ("this")]

def modScan (l : List Char) : List (List Char) → Option (List Char)
  | [] => none
  | w :: ws => if w.isPrefixOf l then some w else modScan l ws

def wdScan (r : List Char) : List (List Char) → Option (List Char)
  | [] => none
  | w :: ws => if r == w then some w else wdScan r ws

/-- Matcher for `^(next|last|this)\\s+(<weekday>)$`; returns the two captured
groups. -/
def weekdayMatch (l : List Char) : Option (List Char × List Char) :=
  match modScan l modifierNames with
  | none => none
  | some w =>
      match l.drop w.length with
      | [] => none
      | c :: _ =>
          if isWsChar c then
            match wdScan ((l.drop w.length).dropWhile isWsChar) weekdayNames with
            | some wd => some (w, wd)
            | none => none
          else none

/-- The `indexOf` of the source's `weekdays` array (`-1` when absent). -/
def indexOfFrom (x : List Char) : List (List Char) → Int → Int
  | [], _ => -1
  | w :: ws, i => if w == x then i else indexOfFrom x ws (i + 1)

/-- The `parseWeekdays` recognizer of `src/nlp/index.ts`. -/
def parseWeekdays (defaultDate : Int) (input : List Char) : NLPParseResult :=
  match weekdayMatch input with
  | none => noMatch input
  | some (mw, wd) =>
      let targetDay := indexOfFrom wd weekdayNames 0
      if targetDay == -1 then noMatch input
      else
        let currentDay := getDay defaultDate
        let delta := targetDay - currentDay
        let daysToAdd :=
          if mw == strL ("next") then (if delta ≤ 0 then delta + 7 else delta)
          else if mw == strL ("last") then (if delta ≥ 0 then delta - 7 else delta)
          else if mw == strL ("this") then (if delta < 0 then delta + 7 else delta)
          else delta
        let date := setHoursF (setDateF defaultDate (getDate defaultDate + daysToAdd)) 0 0 0 0
        { date := some date, confidence := mkRat 17 20,
          matched := input, remaining := [] }

/-- Matcher for `of\\s+(?:the\\s+)?<period>$`, with the optional `the`
backtracked when its reading fails. -/
def periodTail (period : List Char) (r : List Char) : Bool :=
  (strL ("of")).isPrefixOf r &&
  (match r.drop 2 with
   | [] => false
   | c :: _ =>
       isWsChar c &&
       (let r2 := (r.drop 2).dropWhile isWsChar
        if (strL ("the")).isPrefixOf r2 then
          (match r2.drop 3 with
           | [] => r2 == period
           | c2 :: _ =>
               (isWsChar c2 && ((r2.drop 3).dropWhile isWsChar == period)) ||
               r2 == period)
        else r2 == period))

/-- Matcher for `^(<head>)\\s+of\\s+(?:the\\s+)?<period>$` over the
alternation of head words. -/
def headScan (period : List Char) (l : List Char) : List (List Char) → Bool
  | [] => false
  | h :: hs =>
      (h.isPrefixOf l &&
        (match l.drop h.length with
         | [] => false
         | c :: _ =>
             isWsChar c && periodTail period ((l.drop h.length).dropWhile isWsChar))) ||
      headScan period l hs

/-- The `parseMonthReferences` recognizer of `src/nlp/index.ts`, four anchored
patterns tried in source order. -/
def parseMonthReferences (defaultDate : Int) (input : List Char) : NLPParseResult :=
  if headScan (strL ("month")) input [strL ("beginning"), strL ("start")] then
    { date := some (startOfMonth defaultDate), confidence := mkRat 4 5,
      matched := input, remaining := [] }
  else if headScan (strL ("month")) input [strL ("end")] then
    { date := some (endOfMonth defaultDate), confidence := mkRat 4 5,
      matched := input, remaining := [] }
  else if headScan (strL ("week")) input [strL ("beginning"), strL ("start")] then
    { date := some (startOfWeek defaultDate 0), confidence := mkRat 4 5,
      matched := input, remaining := [] }
  else if headScan (strL ("week")) input [strL ("end")] then
    { date := some (endOfWeek defaultDate 0), confidence := mkRat 4 5,
      matched := input, remaining := [] }
  else noMatch input

/-- The `parseTimeExpressions` recognizer of `src/nlp/index.ts` (`^noon$`,
`^midnight$`). -/
def parseTimeExpressions (defaultDate : Int) (input : List Char) : NLPParseResult :=
  if input == strL ("noon") then
    { date := some (setHoursF defaultDate 12 0 0 0), confidence := mkRat 3 4,
      matched := input, remaining := [] }
  else if input == strL ("midnight") then
    { date := some (setHoursF defaultDate 0 0 0 0), confidence := mkRat 3 4,
      matched := input, remaining := [] }
  else noMatch input

/-- The `parseNatural` chain of `src/nlp/index.ts`, with the possible
exception from `normalizeTimeUnit` modelled as `none` and the host
`new Date(input)` parser passed in as `hostParse` (returning `none` where the
constructor would yield an invalid date).  `sysNow` is the system clock read
by `now()` (the `defaultDate` default) and by the keyword recognizer. -/
def parseNaturalE (hostParse : List Char → Option Int) (sysNow : Int)
    (input : List Char) (opts : ParseOptions) : Option NLPParseResult :=
  let defaultDate := opts.defaultDate.getD sysNow
  let normalized := trimWs (lowerStr input)
  let r1 := parseRelativeKeywords sysNow normalized
  if r1.date.isSome then some r1
  else
    match parseRelativeTime defaultDate normalized with
    | none => none
    | some r2 =>
        if r2.date.isSome then some r2
        else
          let r3 := parseWeekdays defaultDate normalized
          if r3.date.isSome then some r3
          else
            let r4 := parseMonthReferences defaultDate normalized
            if r4.date.isSome then some r4
            else
              let r5 := parseTimeExpressions defaultDate normalized
              if r5.date.isSome then some r5
              else if opts.strict then
                some { date := none, confidence := 0, matched := [],
                       remaining := normalized }
              else
                match hostParse input with
                | some d =>
                    some { date := some d, confidence := mkRat 1 2,
                           matched := input, remaining := [] }
                | none =>
                    some { date := none, confidence := 0, matched := [],
                           remaining := normalized }

/-- Total wrapper: the value `parseNatural` returns whenever no exception
occurs (which is always; see the safety theorem). -/
def parseNatural (hostParse : List Char → Option Int) (sysNow : Int)
    (input : List Char) (opts : ParseOptions) : NLPParseResult :=
  (parseNaturalE hostParse sysNow input opts).getD
    { date := none, confidence := 0, matched := [], remaining := trimWs (lowerStr input) }

/-- The `parse` convenience wrapper. -/
def parseDate (hostParse : List Char → Option Int) (sysNow : Int)
    (input : List Char) (opts : ParseOptions) : Option Int :=
  (parseNatural hostParse sysNow input opts).date

/-- The `canParse` convenience wrapper. -/
def canParse (hostParse : List Char → Option Int) (sysNow : Int)
    (input : List Char) (opts : ParseOptions) : Bool :=
  let r := parseNatural hostParse sysNow input opts
  r.date.isSome && decide (mkRat 1 2 < r.confidence)


/-! ## Statement-level vocabulary for the offset claims -/

/-- Canonical decimal numeral of a natural number, as characters. -/
def numChars (N : Nat) : List Char :=
  if N = 0 then [ '0' ] else ((Nat.digits 10 N).map (fun d => Char.ofNat (48 + d))).reverse

/-- Base spelling of each time unit, as accepted by the offset regex. -/
def unitBase : TimeUnit → List Char
  | .millisecond => strL ("millisecond")
  | .second => strL ("second")
  | .minute => strL ("minute")
  | .hour => strL ("hour")
  | .day => strL ("day")
  | .week => strL ("week")
  | .month => strL ("month")
  | .year => strL ("year")

/-- Singular or plural spelling of a unit. -/
def unitSpelling (u : TimeUnit) (plural : Bool) : List Char :=
  unitBase u ++ (if plural then [ 's' ] else [])

/-- The three admissible endings of the future offset phrase. -/
def futureSfx : Fin 3 → List Char
  | 0 => []
  | 1 => strL (" from now")
  | 2 => strL (" ahead")

/-! ## Calendar lemmas -/

theorem daysInYear_bounds (y : Int) : 365 ≤ daysInYear y ∧ daysInYear y ≤ 366 := by
  unfold daysInYear; split <;> omega

theorem yearStartDay_step (y : Int) :
    yearStartDay (y + 1) = yearStartDay y + daysInYear y := by
  unfold yearStartDay daysInYear isLeap
  split
  · rename_i h
    simp only [Bool.or_eq_true, Bool.and_eq_true, beq_iff_eq, bne_iff_ne] at h
    omega
  · rename_i h
    simp only [Bool.or_eq_true, Bool.and_eq_true, beq_iff_eq, bne_iff_ne] at h
    push_neg at h
    omega

theorem yearStartDay_epoch : yearStartDay 1970 = 0 := by decide

theorem yearStartDay_le_add (y : Int) (n : Nat) :
    yearStartDay y + 365 * n ≤ yearStartDay (y + n) := by
  induction n with
  | zero => simp
  | succ k ih =>
      have hs := yearStartDay_step (y + k)
      have hb := daysInYear_bounds (y + k)
      have : (y + (k + 1 : Nat)) = (y + k) + 1 := by push_cast; ring
      rw [this, hs]
      push_cast at ih ⊢
      omega

theorem yearStartDay_mono {y1 y2 : Int} (h : y1 ≤ y2) :
    yearStartDay y1 ≤ yearStartDay y2 := by
  have hle := yearStartDay_le_add y1 (y2 - y1).toNat
  have hc : (((y2 - y1).toNat : Int)) = y2 - y1 := by omega
  rw [hc] at hle
  have : y1 + (y2 - y1) = y2 := by ring
  rw [this] at hle
  omega

theorem yearUpF_spec (fuel : Nat) :
    ∀ (y : Int) (n : Nat), (n : Int) < 365 * ((fuel : Int) + 1) →
    yearStartDay (yearUpF fuel y n).1 + (yearUpF fuel y n).2 = yearStartDay y + n ∧
    0 ≤ (yearUpF fuel y n).2 ∧ (yearUpF fuel y n).2 < daysInYear (yearUpF fuel y n).1 := by
  induction fuel with
  | zero =>
      intro y n hn
      have hb := daysInYear_bounds y
      refine ⟨?_, ?_, ?_⟩ <;> simp [yearUpF] <;> omega
  | succ k ih =>
      intro y n hn
      have hb := daysInYear_bounds y
      by_cases h : n < (daysInYear y).toNat
      · refine ⟨?_, ?_, ?_⟩ <;> simp [yearUpF, h] <;> omega
      · have hrec := ih (y + 1) (n - (daysInYear y).toNat) (by push_cast at hn ⊢; omega)
        have hstep := yearStartDay_step y
        have hcast : ((n - (daysInYear y).toNat : Nat) : Int) = (n : Int) - daysInYear y := by
          omega
        rw [hcast] at hrec
        simp only [yearUpF, if_neg h]
        exact ⟨by omega, hrec.2.1, hrec.2.2⟩

theorem yearDownF_spec (fuel : Nat) :
    ∀ (y : Int) (n : Nat), 1 ≤ n → (n : Int) ≤ 365 * fuel →
    yearStartDay (yearDownF fuel y n).1 + (yearDownF fuel y n).2 = yearStartDay y - n ∧
    0 ≤ (yearDownF fuel y n).2 ∧ (yearDownF fuel y n).2 < daysInYear (yearDownF fuel y n).1 := by
  induction fuel with
  | zero => intro y n h1 h2; omega
  | succ k ih =>
      intro y n h1 h2
      have hb := daysInYear_bounds (y - 1)
      have hstep : yearStartDay y = yearStartDay (y - 1) + daysInYear (y - 1) := by
        have := yearStartDay_step (y - 1); simpa using this
      by_cases h : n ≤ (daysInYear (y - 1)).toNat
      · refine ⟨?_, ?_, ?_⟩ <;> simp [yearDownF, h] <;> omega
      · have hrec := ih (y - 1) (n - (daysInYear (y - 1)).toNat) (by omega)
          (by push_cast at h2 ⊢; omega)
        have hcast : ((n - (daysInYear (y - 1)).toNat : Nat) : Int) =
            (n : Int) - daysInYear (y - 1) := by omega
        rw [hcast] at hrec
        simp only [yearDownF, if_neg h]
        exact ⟨by omega, hrec.2.1, hrec.2.2⟩

theorem yearDoyOfDay_spec (z : Int) :
    yearStartDay (yearDoyOfDay z).1 + (yearDoyOfDay z).2 = z ∧
    0 ≤ (yearDoyOfDay z).2 ∧ (yearDoyOfDay z).2 < daysInYear (yearDoyOfDay z).1 := by
  unfold yearDoyOfDay
  split
  · rename_i h
    have hs := yearUpF_spec (z.toNat + 1) 1970 z.toNat (by push_cast; omega)
    rw [yearStartDay_epoch] at hs
    have hc : ((z.toNat : Nat) : Int) = z := by omega
    rw [hc] at hs
    exact ⟨by omega, hs.2⟩
  · rename_i h
    have hs := yearDownF_spec (-z).toNat 1970 (-z).toNat (by omega) (by push_cast; omega)
    rw [yearStartDay_epoch] at hs
    have hc : (((-z).toNat : Nat) : Int) = -z := by omega
    rw [hc] at hs
    exact ⟨by omega, hs.2⟩

theorem yearDoyOfDay_unique {z y : Int} (h1 : yearStartDay y ≤ z)
    (h2 : z < yearStartDay y + daysInYear y) :
    yearDoyOfDay z = (y, z - yearStartDay y) := by
  obtain ⟨heq, hlo, hhi⟩ := yearDoyOfDay_spec z
  set p := yearDoyOfDay z with hp
  have hy : p.1 = y := by
    by_contra hne
    rcases lt_or_gt_of_ne hne with hlt | hgt
    · have hstep := yearStartDay_step p.1
      have hm := yearStartDay_mono (show p.1 + 1 ≤ y by omega)
      omega
    · have hstep := yearStartDay_step y
      have hm := yearStartDay_mono (show y + 1 ≤ p.1 by omega)
      omega
  have : p = (p.1, p.2) := rfl
  rw [this, hy]
  have : p.2 = z - yearStartDay y := by rw [← hy]; omega
  rw [this]

theorem mdd0 (leap : Bool) (doy : Int) (hlo : 0 ≤ doy) (hhi : doy < 31) :
    monthDayFromDoy leap doy = (0, doy + 1) := by
  have hilp : ilp leap = 0 ∨ ilp leap = 1 := by rcases leap <;> simp [ilp]
  have hp : doy < 31 := by omega
  simp [monthDayFromDoy, hp]

theorem mdd1 (leap : Bool) (doy : Int) (hlo : 31 ≤ doy) (hhi : doy < 59 + ilp leap) :
    monthDayFromDoy leap doy = (1, doy - 31 + 1) := by
  have hilp : ilp leap = 0 ∨ ilp leap = 1 := by rcases leap <;> simp [ilp]
  have hn0 : ¬ (doy < 31) := by omega
  have hp : doy < 59 + ilp leap := by omega
  simp [monthDayFromDoy, hn0, hp]

theorem mdd2 (leap : Bool) (doy : Int) (hlo : 59 + ilp leap ≤ doy) (hhi : doy < 90 + ilp leap) :
    monthDayFromDoy leap doy = (2, doy - (59 + ilp leap) + 1) := by
  have hilp : ilp leap = 0 ∨ ilp leap = 1 := by rcases leap <;> simp [ilp]
  have hn0 : ¬ (doy < 31) := by omega
  have hn1 : ¬ (doy < 59 + ilp leap) := by omega
  have hp : doy < 90 + ilp leap := by omega
  simp [monthDayFromDoy, hn0, hn1, hp]

theorem mdd3 (leap : Bool) (doy : Int) (hlo : 90 + ilp leap ≤ doy) (hhi : doy < 120 + ilp leap) :
    monthDayFromDoy leap doy = (3, doy - (90 + ilp leap) + 1) := by
  have hilp : ilp leap = 0 ∨ ilp leap = 1 := by rcases leap <;> simp [ilp]
  have hn0 : ¬ (doy < 31) := by omega
  have hn1 : ¬ (doy < 59 + ilp leap) := by omega
  have hn2 : ¬ (doy < 90 + ilp leap) := by omega
  have hp : doy < 120 + ilp leap := by omega
  simp [monthDayFromDoy, hn0, hn1, hn2, hp]

theorem mdd4 (leap : Bool) (doy : Int) (hlo : 120 + ilp leap ≤ doy) (hhi : doy < 151 + ilp leap) :
    monthDayFromDoy leap doy = (4, doy - (120 + ilp leap) + 1) := by
  have hilp : ilp leap = 0 ∨ ilp leap = 1 := by rcases leap <;> simp [ilp]
  have hn0 : ¬ (doy < 31) := by omega
  have hn1 : ¬ (doy < 59 + ilp leap) := by omega
  have hn2 : ¬ (doy < 90 + ilp leap) := by omega
  have hn3 : ¬ (doy < 120 + ilp leap) := by omega
  have hp : doy < 151 + ilp leap := by omega
  simp [monthDayFromDoy, hn0, hn1, hn2, hn3, hp]

theorem mdd5 (leap : Bool) (doy : Int) (hlo : 151 + ilp leap ≤ doy) (hhi : doy < 181 + ilp leap) :
    monthDayFromDoy leap doy = (5, doy - (151 + ilp leap) + 1) := by
  have hilp : ilp leap = 0 ∨ ilp leap = 1 := by rcases leap <;> simp [ilp]
  have hn0 : ¬ (doy < 31) := by omega
  have hn1 : ¬ (doy < 59 + ilp leap) := by omega
  have hn2 : ¬ (doy < 90 + ilp leap) := by omega
  have hn3 : ¬ (doy < 120 + ilp leap) := by omega
  have hn4 : ¬ (doy < 151 + ilp leap) := by omega
  have hp : doy < 181 + ilp leap := by omega
  simp [monthDayFromDoy, hn0, hn1, hn2, hn3, hn4, hp]

theorem mdd6 (leap : Bool) (doy : Int) (hlo : 181 + ilp leap ≤ doy) (hhi : doy < 212 + ilp leap) :
    monthDayFromDoy leap doy = (6, doy - (181 + ilp leap) + 1) := by
  have hilp : ilp leap = 0 ∨ ilp leap = 1 := by rcases leap <;> simp [ilp]
  have hn0 : ¬ (doy < 31) := by omega
  have hn1 : ¬ (doy < 59 + ilp leap) := by omega
  have hn2 : ¬ (doy < 90 + ilp leap) := by omega
  have hn3 : ¬ (doy < 120 + ilp leap) := by omega
  have hn4 : ¬ (doy < 151 + ilp leap) := by omega
  have hn5 : ¬ (doy < 181 + ilp leap) := by omega
  have hp : doy < 212 + ilp leap := by omega
  simp [monthDayFromDoy, hn0, hn1, hn2, hn3, hn4, hn5, hp]

theorem mdd7 (leap : Bool) (doy : Int) (hlo : 212 + ilp leap ≤ doy) (hhi : doy < 243 + ilp leap) :
    monthDayFromDoy leap doy = (7, doy - (212 + ilp leap) + 1) := by
  have hilp : ilp leap = 0 ∨ ilp leap = 1 := by rcases leap <;> simp [ilp]
  have hn0 : ¬ (doy < 31) := by omega
  have hn1 : ¬ (doy < 59 + ilp leap) := by omega
  have hn2 : ¬ (doy < 90 + ilp leap) := by omega
  have hn3 : ¬ (doy < 120 + ilp leap) := by omega
  have hn4 : ¬ (doy < 151 + ilp leap) := by omega
  have hn5 : ¬ (doy < 181 + ilp leap) := by omega
  have hn6 : ¬ (doy < 212 + ilp leap) := by omega
  have hp : doy < 243 + ilp leap := by omega
  simp [monthDayFromDoy, hn0, hn1, hn2, hn3, hn4, hn5, hn6, hp]

theorem mdd8 (leap : Bool) (doy : Int) (hlo : 243 + ilp leap ≤ doy) (hhi : doy < 273 + ilp leap) :
    monthDayFromDoy leap doy = (8, doy - (243 + ilp leap) + 1) := by
  have hilp : ilp leap = 0 ∨ ilp leap = 1 := by rcases leap <;> simp [ilp]
  have hn0 : ¬ (doy < 31) := by omega
  have hn1 : ¬ (doy < 59 + ilp leap) := by omega
  have hn2 : ¬ (doy < 90 + ilp leap) := by omega
  have hn3 : ¬ (doy < 120 + ilp leap) := by omega
  have hn4 : ¬ (doy < 151 + ilp leap) := by omega
  have hn5 : ¬ (doy < 181 + ilp leap) := by omega
  have hn6 : ¬ (doy < 212 + ilp leap) := by omega
  have hn7 : ¬ (doy < 243 + ilp leap) := by omega
  have hp : doy < 273 + ilp leap := by omega
  simp [monthDayFromDoy, hn0, hn1, hn2, hn3, hn4, hn5, hn6, hn7, hp]

theorem mdd9 (leap : Bool) (doy : Int) (hlo : 273 + ilp leap ≤ doy) (hhi : doy < 304 + ilp leap) :
    monthDayFromDoy leap doy = (9, doy - (273 + ilp leap) + 1) := by
  have hilp : ilp leap = 0 ∨ ilp leap = 1 := by rcases leap <;> simp [ilp]
  have hn0 : ¬ (doy < 31) := by omega
  have hn1 : ¬ (doy < 59 + ilp leap) := by omega
  have hn2 : ¬ (doy < 90 + ilp leap) := by omega
  have hn3 : ¬ (doy < 120 + ilp leap) := by omega
  have hn4 : ¬ (doy < 151 + ilp leap) := by omega
  have hn5 : ¬ (doy < 181 + ilp leap) := by omega
  have hn6 : ¬ (doy < 212 + ilp leap) := by omega
  have hn7 : ¬ (doy < 243 + ilp leap) := by omega
  have hn8 : ¬ (doy < 273 + ilp leap) := by omega
  have hp : doy < 304 + ilp leap := by omega
  simp [monthDayFromDoy, hn0, hn1, hn2, hn3, hn4, hn5, hn6, hn7, hn8, hp]

theorem mdd10 (leap : Bool) (doy : Int) (hlo : 304 + ilp leap ≤ doy) (hhi : doy < 334 + ilp leap) :
    monthDayFromDoy leap doy = (10, doy - (304 + ilp leap) + 1) := by
  have hilp : ilp leap = 0 ∨ ilp leap = 1 := by rcases leap <;> simp [ilp]
  have hn0 : ¬ (doy < 31) := by omega
  have hn1 : ¬ (doy < 59 + ilp leap) := by omega
  have hn2 : ¬ (doy < 90 + ilp leap) := by omega
  have hn3 : ¬ (doy < 120 + ilp leap) := by omega
  have hn4 : ¬ (doy < 151 + ilp leap) := by omega
  have hn5 : ¬ (doy < 181 + ilp leap) := by omega
  have hn6 : ¬ (doy < 212 + ilp leap) := by omega
  have hn7 : ¬ (doy < 243 + ilp leap) := by omega
  have hn8 : ¬ (doy < 273 + ilp leap) := by omega
  have hn9 : ¬ (doy < 304 + ilp leap) := by omega
  have hp : doy < 334 + ilp leap := by omega
  simp [monthDayFromDoy, hn0, hn1, hn2, hn3, hn4, hn5, hn6, hn7, hn8, hn9, hp]

theorem mdd11 (leap : Bool) (doy : Int) (hlo : 334 + ilp leap ≤ doy) (hhi : doy < 365 + ilp leap) :
    monthDayFromDoy leap doy = (11, doy - (334 + ilp leap) + 1) := by
  have hilp : ilp leap = 0 ∨ ilp leap = 1 := by rcases leap <;> simp [ilp]
  have hn0 : ¬ (doy < 31) := by omega
  have hn1 : ¬ (doy < 59 + ilp leap) := by omega
  have hn2 : ¬ (doy < 90 + ilp leap) := by omega
  have hn3 : ¬ (doy < 120 + ilp leap) := by omega
  have hn4 : ¬ (doy < 151 + ilp leap) := by omega
  have hn5 : ¬ (doy < 181 + ilp leap) := by omega
  have hn6 : ¬ (doy < 212 + ilp leap) := by omega
  have hn7 : ¬ (doy < 243 + ilp leap) := by omega
  have hn8 : ¬ (doy < 273 + ilp leap) := by omega
  have hn9 : ¬ (doy < 304 + ilp leap) := by omega
  have hn10 : ¬ (doy < 334 + ilp leap) := by omega
  simp [monthDayFromDoy, hn0, hn1, hn2, hn3, hn4, hn5, hn6, hn7, hn8, hn9, hn10]

theorem ilp_cases (leap : Bool) : ilp leap = 0 ∨ ilp leap = 1 := by
  rcases leap <;> simp [ilp]

theorem msAt0 (leap : Bool) : monthStart leap 0 = 0 := by
  rcases leap <;> norm_num [monthStart, monthStartBase, ilp]

theorem msAt1 (leap : Bool) : monthStart leap 1 = 31 := by
  rcases leap <;> norm_num [monthStart, monthStartBase, ilp]

theorem msAt2 (leap : Bool) : monthStart leap 2 = 59 + ilp leap := by
  rcases leap <;> norm_num [monthStart, monthStartBase, ilp]

theorem msAt3 (leap : Bool) : monthStart leap 3 = 90 + ilp leap := by
  rcases leap <;> norm_num [monthStart, monthStartBase, ilp]

theorem msAt4 (leap : Bool) : monthStart leap 4 = 120 + ilp leap := by
  rcases leap <;> norm_num [monthStart, monthStartBase, ilp]

theorem msAt5 (leap : Bool) : monthStart leap 5 = 151 + ilp leap := by
  rcases leap <;> norm_num [monthStart, monthStartBase, ilp]

theorem msAt6 (leap : Bool) : monthStart leap 6 = 181 + ilp leap := by
  rcases leap <;> norm_num [monthStart, monthStartBase, ilp]

theorem msAt7 (leap : Bool) : monthStart leap 7 = 212 + ilp leap := by
  rcases leap <;> norm_num [monthStart, monthStartBase, ilp]

theorem msAt8 (leap : Bool) : monthStart leap 8 = 243 + ilp leap := by
  rcases leap <;> norm_num [monthStart, monthStartBase, ilp]

theorem msAt9 (leap : Bool) : monthStart leap 9 = 273 + ilp leap := by
  rcases leap <;> norm_num [monthStart, monthStartBase, ilp]

theorem msAt10 (leap : Bool) : monthStart leap 10 = 304 + ilp leap := by
  rcases leap <;> norm_num [monthStart, monthStartBase, ilp]

theorem msAt11 (leap : Bool) : monthStart leap 11 = 334 + ilp leap := by
  rcases leap <;> norm_num [monthStart, monthStartBase, ilp]

theorem dimAt0 (leap : Bool) : daysInMonth leap 0 = 31 := by
  rcases leap <;> norm_num [daysInMonth, ilp]

theorem dimAt1 (leap : Bool) : daysInMonth leap 1 = 28 + ilp leap := by
  rcases leap <;> norm_num [daysInMonth, ilp]

theorem dimAt2 (leap : Bool) : daysInMonth leap 2 = 31 := by
  rcases leap <;> norm_num [daysInMonth, ilp]

theorem dimAt3 (leap : Bool) : daysInMonth leap 3 = 30 := by
  rcases leap <;> norm_num [daysInMonth, ilp]

theorem dimAt4 (leap : Bool) : daysInMonth leap 4 = 31 := by
  rcases leap <;> norm_num [daysInMonth, ilp]

theorem dimAt5 (leap : Bool) : daysInMonth leap 5 = 30 := by
  rcases leap <;> norm_num [daysInMonth, ilp]

theorem dimAt6 (leap : Bool) : daysInMonth leap 6 = 31 := by
  rcases leap <;> norm_num [daysInMonth, ilp]

theorem dimAt7 (leap : Bool) : daysInMonth leap 7 = 31 := by
  rcases leap <;> norm_num [daysInMonth, ilp]

theorem dimAt8 (leap : Bool) : daysInMonth leap 8 = 30 := by
  rcases leap <;> norm_num [daysInMonth, ilp]

theorem dimAt9 (leap : Bool) : daysInMonth leap 9 = 31 := by
  rcases leap <;> norm_num [daysInMonth, ilp]

theorem dimAt10 (leap : Bool) : daysInMonth leap 10 = 30 := by
  rcases leap <;> norm_num [daysInMonth, ilp]

theorem dimAt11 (leap : Bool) : daysInMonth leap 11 = 31 := by
  rcases leap <;> norm_num [daysInMonth, ilp]

theorem monthDayFromDoy_spec (leap : Bool) (doy m d : Int) (h0 : 0 ≤ doy)
    (h1 : doy < 365 + ilp leap)
    (heq : monthDayFromDoy leap doy = (m, d)) :
    0 ≤ m ∧ m < 12 ∧ 1 ≤ d ∧ d ≤ daysInMonth leap m ∧
    monthStart leap m + (d - 1) = doy := by
  have hilp := ilp_cases leap
  obtain hc | hc | hc | hc | hc | hc | hc | hc | hc | hc | hc | hc :
      (0 ≤ doy ∧ doy < 31) ∨
      (31 ≤ doy ∧ doy < 59 + ilp leap) ∨
      (59 + ilp leap ≤ doy ∧ doy < 90 + ilp leap) ∨
      (90 + ilp leap ≤ doy ∧ doy < 120 + ilp leap) ∨
      (120 + ilp leap ≤ doy ∧ doy < 151 + ilp leap) ∨
      (151 + ilp leap ≤ doy ∧ doy < 181 + ilp leap) ∨
      (181 + ilp leap ≤ doy ∧ doy < 212 + ilp leap) ∨
      (212 + ilp leap ≤ doy ∧ doy < 243 + ilp leap) ∨
      (243 + ilp leap ≤ doy ∧ doy < 273 + ilp leap) ∨
      (273 + ilp leap ≤ doy ∧ doy < 304 + ilp leap) ∨
      (304 + ilp leap ≤ doy ∧ doy < 334 + ilp leap) ∨
      (334 + ilp leap ≤ doy ∧ doy < 365 + ilp leap) := by omega
  · rw [mdd0 leap doy hc.1 hc.2] at heq
    injection heq with hm hd
    subst hm
    subst hd
    rw [msAt0 leap, dimAt0 leap]
    omega
  · rw [mdd1 leap doy hc.1 hc.2] at heq
    injection heq with hm hd
    subst hm
    subst hd
    rw [msAt1 leap, dimAt1 leap]
    omega
  · rw [mdd2 leap doy hc.1 hc.2] at heq
    injection heq with hm hd
    subst hm
    subst hd
    rw [msAt2 leap, dimAt2 leap]
    omega
  · rw [mdd3 leap doy hc.1 hc.2] at heq
    injection heq with hm hd
    subst hm
    subst hd
    rw [msAt3 leap, dimAt3 leap]
    omega
  · rw [mdd4 leap doy hc.1 hc.2] at heq
    injection heq with hm hd
    subst hm
    subst hd
    rw [msAt4 leap, dimAt4 leap]
    omega
  · rw [mdd5 leap doy hc.1 hc.2] at heq
    injection heq with hm hd
    subst hm
    subst hd
    rw [msAt5 leap, dimAt5 leap]
    omega
  · rw [mdd6 leap doy hc.1 hc.2] at heq
    injection heq with hm hd
    subst hm
    subst hd
    rw [msAt6 leap, dimAt6 leap]
    omega
  · rw [mdd7 leap doy hc.1 hc.2] at heq
    injection heq with hm hd
    subst hm
    subst hd
    rw [msAt7 leap, dimAt7 leap]
    omega
  · rw [mdd8 leap doy hc.1 hc.2] at heq
    injection heq with hm hd
    subst hm
    subst hd
    rw [msAt8 leap, dimAt8 leap]
    omega
  · rw [mdd9 leap doy hc.1 hc.2] at heq
    injection heq with hm hd
    subst hm
    subst hd
    rw [msAt9 leap, dimAt9 leap]
    omega
  · rw [mdd10 leap doy hc.1 hc.2] at heq
    injection heq with hm hd
    subst hm
    subst hd
    rw [msAt10 leap, dimAt10 leap]
    omega
  · rw [mdd11 leap doy hc.1 hc.2] at heq
    injection heq with hm hd
    subst hm
    subst hd
    rw [msAt11 leap, dimAt11 leap]
    omega

theorem monthDay_inverse (leap : Bool) (m d : Int) (hm0 : 0 ≤ m) (hm1 : m < 12)
    (hd0 : 1 ≤ d) (hd1 : d ≤ daysInMonth leap m) :
    monthDayFromDoy leap (monthStart leap m + (d - 1)) = (m, d) := by
  have hilp := ilp_cases leap
  obtain rfl | rfl | rfl | rfl | rfl | rfl | rfl | rfl | rfl | rfl | rfl | rfl :
      m = 0 ∨ m = 1 ∨ m = 2 ∨ m = 3 ∨ m = 4 ∨ m = 5 ∨ m = 6 ∨ m = 7 ∨ m = 8 ∨
      m = 9 ∨ m = 10 ∨ m = 11 := by omega
  · rw [dimAt0 leap] at hd1
    rw [msAt0 leap]
    rw [mdd0 leap _ (by omega) (by omega)]
    rw [Prod.mk.injEq]
    exact ⟨rfl, by omega⟩
  · rw [dimAt1 leap] at hd1
    rw [msAt1 leap]
    rw [mdd1 leap _ (by omega) (by omega)]
    rw [Prod.mk.injEq]
    exact ⟨rfl, by omega⟩
  · rw [dimAt2 leap] at hd1
    rw [msAt2 leap]
    rw [mdd2 leap _ (by omega) (by omega)]
    rw [Prod.mk.injEq]
    exact ⟨rfl, by omega⟩
  · rw [dimAt3 leap] at hd1
    rw [msAt3 leap]
    rw [mdd3 leap _ (by omega) (by omega)]
    rw [Prod.mk.injEq]
    exact ⟨rfl, by omega⟩
  · rw [dimAt4 leap] at hd1
    rw [msAt4 leap]
    rw [mdd4 leap _ (by omega) (by omega)]
    rw [Prod.mk.injEq]
    exact ⟨rfl, by omega⟩
  · rw [dimAt5 leap] at hd1
    rw [msAt5 leap]
    rw [mdd5 leap _ (by omega) (by omega)]
    rw [Prod.mk.injEq]
    exact ⟨rfl, by omega⟩
  · rw [dimAt6 leap] at hd1
    rw [msAt6 leap]
    rw [mdd6 leap _ (by omega) (by omega)]
    rw [Prod.mk.injEq]
    exact ⟨rfl, by omega⟩
  · rw [dimAt7 leap] at hd1
    rw [msAt7 leap]
    rw [mdd7 leap _ (by omega) (by omega)]
    rw [Prod.mk.injEq]
    exact ⟨rfl, by omega⟩
  · rw [dimAt8 leap] at hd1
    rw [msAt8 leap]
    rw [mdd8 leap _ (by omega) (by omega)]
    rw [Prod.mk.injEq]
    exact ⟨rfl, by omega⟩
  · rw [dimAt9 leap] at hd1
    rw [msAt9 leap]
    rw [mdd9 leap _ (by omega) (by omega)]
    rw [Prod.mk.injEq]
    exact ⟨rfl, by omega⟩
  · rw [dimAt10 leap] at hd1
    rw [msAt10 leap]
    rw [mdd10 leap _ (by omega) (by omega)]
    rw [Prod.mk.injEq]
    exact ⟨rfl, by omega⟩
  · rw [dimAt11 leap] at hd1
    rw [msAt11 leap]
    rw [mdd11 leap _ (by omega) (by omega)]
    rw [Prod.mk.injEq]
    exact ⟨rfl, by omega⟩

theorem daysInYear_eq (y : Int) : daysInYear y = 365 + ilp (isLeap y) := by
  rcases h : isLeap y <;> simp [daysInYear, ilp, h]

theorem doy_bound (leap : Bool) (m d : Int) (hm0 : 0 ≤ m) (hm1 : m < 12)
    (hd0 : 1 ≤ d) (hd1 : d ≤ daysInMonth leap m) :
    0 ≤ monthStart leap m + (d - 1) ∧
    monthStart leap m + (d - 1) < 365 + ilp leap := by
  interval_cases m <;> rcases leap <;>
    simp_all [daysInMonth, monthStart, monthStartBase, ilp] <;> omega

theorem mkDay_of_range (y m d : Int) (hm0 : 0 ≤ m) (hm1 : m < 12) :
    mkDay y m d = yearStartDay y + monthStart (isLeap y) m + (d - 1) := by
  have hq : m / 12 = 0 := by omega
  have hr : m % 12 = m := by omega
  unfold mkDay
  rw [hq, hr]
  ring_nf

/-- Direction A of the calendar bijection: converting an epoch day to calendar
fields and back is the identity, and the fields land in their valid ranges. -/
theorem civilOfDay_valid (z : Int) :
    mkDay (civilOfDay z).1 (civilOfDay z).2.1 (civilOfDay z).2.2 = z ∧
    0 ≤ (civilOfDay z).2.1 ∧ (civilOfDay z).2.1 < 12 ∧
    1 ≤ (civilOfDay z).2.2 ∧
    (civilOfDay z).2.2 ≤ daysInMonth (isLeap (civilOfDay z).1) (civilOfDay z).2.1 := by
  obtain ⟨hsum, hlo, hhi⟩ := yearDoyOfDay_spec z
  rw [daysInYear_eq] at hhi
  obtain ⟨q1, q2, q3, q4, q5⟩ :=
    monthDayFromDoy_spec (isLeap (yearDoyOfDay z).1) (yearDoyOfDay z).2
      (monthDayFromDoy (isLeap (yearDoyOfDay z).1) (yearDoyOfDay z).2).1
      (monthDayFromDoy (isLeap (yearDoyOfDay z).1) (yearDoyOfDay z).2).2
      hlo hhi rfl
  simp only [civilOfDay]
  refine ⟨?_, q1, q2, q3, q4⟩
  rw [mkDay_of_range _ _ _ q1 q2]
  omega

/-- Direction B of the calendar bijection: valid calendar fields are recovered
from their epoch day. -/
theorem civilOfDay_mkDay (y m d : Int) (hm0 : 0 ≤ m) (hm1 : m < 12)
    (hd0 : 1 ≤ d) (hd1 : d ≤ daysInMonth (isLeap y) m) :
    civilOfDay (mkDay y m d) = (y, m, d) := by
  obtain ⟨hb0, hb1⟩ := doy_bound (isLeap y) m d hm0 hm1 hd0 hd1
  have hz : mkDay y m d = yearStartDay y + (monthStart (isLeap y) m + (d - 1)) := by
    rw [mkDay_of_range _ _ _ hm0 hm1]; ring
  have hdy : monthStart (isLeap y) m + (d - 1) < daysInYear y := by
    rw [daysInYear_eq]; omega
  have hu : yearDoyOfDay (mkDay y m d) = (y, mkDay y m d - yearStartDay y) := by
    apply yearDoyOfDay_unique <;> omega
  have hdoy : mkDay y m d - yearStartDay y = monthStart (isLeap y) m + (d - 1) := by omega
  simp only [civilOfDay]
  rw [hu]
  simp only [hdoy]
  rw [monthDay_inverse (isLeap y) m d hm0 hm1 hd0 hd1]

/-! ## Millisecond-level lemmas -/

theorem mkDate_eday_tms (t : Int) : mkDate (eday t) (tms t) = t := by
  unfold mkDate eday tms; omega

theorem fields_roundtrip (t : Int) :
    mkDate (mkDay (getFullYear t) (getMonth t) (getDate t)) (tms t) = t := by
  have h := (civilOfDay_valid (eday t)).1
  unfold getFullYear getMonth getDate
  rw [h]
  exact mkDate_eday_tms t

theorem getMonth_range (t : Int) : 0 ≤ getMonth t ∧ getMonth t < 12 := by
  have h := civilOfDay_valid (eday t)
  exact ⟨h.2.1, h.2.2.1⟩

theorem getDate_range (t : Int) :
    1 ≤ getDate t ∧ getDate t ≤ daysInMonth (isLeap (getFullYear t)) (getMonth t) := by
  have h := civilOfDay_valid (eday t)
  exact ⟨h.2.2.2.1, h.2.2.2.2⟩

theorem mkDay_linear (y m d n : Int) : mkDay y m (d + n) = mkDay y m d + n := by
  unfold mkDay; ring

theorem setDateF_shift (t n : Int) : setDateF t (getDate t + n) = t + n * 86400000 := by
  unfold setDateF
  rw [mkDay_linear]
  have h := fields_roundtrip t
  unfold mkDate at *
  omega

theorem add_ms_eq (t n : Int) : add t n .millisecond = t + n := by
  show setMillisecondsF t (getMilliseconds t + n) = t + n
  unfold setMillisecondsF mkDate mkTime eday getHours getMinutes getSeconds getMilliseconds
  omega

theorem add_second_eq (t n : Int) : add t n .second = t + n * 1000 := by
  show setSecondsF t (getSeconds t + n) = t + n * 1000
  unfold setSecondsF mkDate mkTime eday getHours getMinutes getSeconds getMilliseconds
  omega

theorem add_minute_eq (t n : Int) : add t n .minute = t + n * 60000 := by
  show setMinutesF t (getMinutes t + n) = t + n * 60000
  unfold setMinutesF mkDate mkTime eday getHours getMinutes getSeconds getMilliseconds
  omega

theorem add_hour_eq (t n : Int) : add t n .hour = t + n * 3600000 := by
  show setHoursOnlyF t (getHours t + n) = t + n * 3600000
  unfold setHoursOnlyF mkDate mkTime eday getHours getMinutes getSeconds getMilliseconds
  omega

theorem add_day_eq (t n : Int) : add t n .day = t + n * 86400000 := by
  show setDateF t (getDate t + n) = _
  exact setDateF_shift t n

theorem add_week_eq (t n : Int) : add t n .week = t + n * 7 * 86400000 := by
  show setDateF t (getDate t + n * 7) = _
  rw [setDateF_shift t (n * 7)]

theorem add_zero (t : Int) (u : TimeUnit) : add t 0 u = t := by
  cases u
  · rw [add_ms_eq]; ring
  · rw [add_second_eq]; ring
  · rw [add_minute_eq]; ring
  · rw [add_hour_eq]; ring
  · rw [add_day_eq]; ring
  · rw [add_week_eq]; ring
  · show setMonthF t (getMonth t + 0) = t
    rw [show getMonth t + 0 = getMonth t by ring]
    exact fields_roundtrip t
  · show setFullYearF t (getFullYear t + 0) = t
    rw [show getFullYear t + 0 = getFullYear t by ring]
    exact fields_roundtrip t

theorem startOfDay_eq (t : Int) : startOfDay t = 86400000 * eday t := by
  unfold startOfDay setHoursF mkDate mkTime eday; ring_nf

theorem startOfDay_shift (t k : Int) :
    startOfDay (t + k * 86400000) = startOfDay t + k * 86400000 := by
  rw [startOfDay_eq, startOfDay_eq]
  unfold eday
  omega

theorem eday_startOfDay (t : Int) : eday (startOfDay t) = eday t := by
  rw [startOfDay_eq]; unfold eday; omega

theorem tms_startOfDay (t : Int) : tms (startOfDay t) = 0 := by
  rw [startOfDay_eq]; unfold tms; omega

theorem getDay_startOfDay (t : Int) : getDay (startOfDay t) = getDay t := by
  unfold getDay; rw [eday_startOfDay]

theorem getDate_startOfDay (t : Int) : getDate (startOfDay t) = getDate t := by
  unfold getDate; rw [eday_startOfDay]

theorem getDay_shift (t k : Int) : getDay (t + k * 86400000) = (getDay t + k) % 7 := by
  unfold getDay eday
  omega


theorem getDay_range (t : Int) : 0 ≤ getDay t ∧ getDay t < 7 := by
  unfold getDay eday; omega

theorem tms_range (t : Int) : 0 ≤ tms t ∧ tms t < 86400000 := by
  unfold tms; omega

theorem eday_mkDate (day w : Int) (h0 : 0 ≤ w) (h1 : w < 86400000) :
    eday (mkDate day w) = day := by
  unfold eday mkDate; omega

theorem mkDay_norm (y m d : Int) : mkDay y m d = mkDay (y + m / 12) (m % 12) d := by
  unfold mkDay
  rw [show (m % 12) / 12 = 0 from by omega, show (m % 12) % 12 = m % 12 from by omega]
  norm_num

theorem fields_of_mk (y m d w : Int) (hm0 : 0 ≤ m) (hm1 : m < 12) (hd0 : 1 ≤ d)
    (hd1 : d ≤ daysInMonth (isLeap y) m) (hw0 : 0 ≤ w) (hw1 : w < 86400000) :
    getFullYear (mkDate (mkDay y m d) w) = y ∧
    getMonth (mkDate (mkDay y m d) w) = m ∧
    getDate (mkDate (mkDay y m d) w) = d := by
  have he := eday_mkDate (mkDay y m d) w hw0 hw1
  have hc := civilOfDay_mkDay y m d hm0 hm1 hd0 hd1
  unfold getFullYear getMonth getDate
  rw [he, hc]
  exact ⟨rfl, rfl, rfl⟩

theorem dim_lb (leap : Bool) (m : Int) (h0 : 0 ≤ m) (h1 : m < 12) :
    28 ≤ daysInMonth leap m ∧ daysInMonth leap m ≤ 31 := by
  have hilp := ilp_cases leap
  obtain rfl | rfl | rfl | rfl | rfl | rfl | rfl | rfl | rfl | rfl | rfl | rfl :
      m = 0 ∨ m = 1 ∨ m = 2 ∨ m = 3 ∨ m = 4 ∨ m = 5 ∨ m = 6 ∨ m = 7 ∨ m = 8 ∨
      m = 9 ∨ m = 10 ∨ m = 11 := by omega
  · rw [dimAt0]; omega
  · rw [dimAt1]; omega
  · rw [dimAt2]; omega
  · rw [dimAt3]; omega
  · rw [dimAt4]; omega
  · rw [dimAt5]; omega
  · rw [dimAt6]; omega
  · rw [dimAt7]; omega
  · rw [dimAt8]; omega
  · rw [dimAt9]; omega
  · rw [dimAt10]; omega
  · rw [dimAt11]; omega

theorem monthStart_step (leap : Bool) (m : Int) (h0 : 0 ≤ m) (h1 : m < 11) :
    monthStart leap (m + 1) = monthStart leap m + daysInMonth leap m := by
  have hilp := ilp_cases leap
  obtain rfl | rfl | rfl | rfl | rfl | rfl | rfl | rfl | rfl | rfl | rfl :
      m = 0 ∨ m = 1 ∨ m = 2 ∨ m = 3 ∨ m = 4 ∨ m = 5 ∨ m = 6 ∨ m = 7 ∨ m = 8 ∨
      m = 9 ∨ m = 10 := by omega
  · rw [show (0:Int) + 1 = 1 from rfl, msAt1, msAt0, dimAt0]; ring
  · rw [show (1:Int) + 1 = 2 from rfl, msAt2, msAt1, dimAt1]; ring
  · rw [show (2:Int) + 1 = 3 from rfl, msAt3, msAt2, dimAt2]; ring
  · rw [show (3:Int) + 1 = 4 from rfl, msAt4, msAt3, dimAt3]; ring
  · rw [show (4:Int) + 1 = 5 from rfl, msAt5, msAt4, dimAt4]; ring
  · rw [show (5:Int) + 1 = 6 from rfl, msAt6, msAt5, dimAt5]; ring
  · rw [show (6:Int) + 1 = 7 from rfl, msAt7, msAt6, dimAt6]; ring
  · rw [show (7:Int) + 1 = 8 from rfl, msAt8, msAt7, dimAt7]; ring
  · rw [show (8:Int) + 1 = 9 from rfl, msAt9, msAt8, dimAt8]; ring
  · rw [show (9:Int) + 1 = 10 from rfl, msAt10, msAt9, dimAt9]; ring
  · rw [show (10:Int) + 1 = 11 from rfl, msAt11, msAt10, dimAt10]; ring

/-- On day overflow, `mkDay` rolls linearly into the following month. -/
theorem mkDay_overflow (y m d : Int) (hm0 : 0 ≤ m) (hm1 : m < 11) (hd0 : 1 ≤ d)
    (hd1 : daysInMonth (isLeap y) m < d) :
    mkDay y m d = mkDay y (m + 1) (d - daysInMonth (isLeap y) m) := by
  rw [mkDay_of_range y m d hm0 (by omega),
      mkDay_of_range y (m + 1) _ (by omega) (by omega),
      monthStart_step (isLeap y) m hm0 hm1]
  ring

/-- Calendar fields of `add t 1 month`: the month field advances by one
(normalized into the year), except that an overflowing day-of-month rolls
into the month after. -/
theorem add_month_fields (t : Int) :
    (getDate t ≤ daysInMonth (isLeap (getFullYear t + (getMonth t + 1) / 12)) ((getMonth t + 1) % 12) →
      getFullYear (add t 1 .month) = getFullYear t + (getMonth t + 1) / 12 ∧
      getMonth (add t 1 .month) = (getMonth t + 1) % 12) ∧
    (daysInMonth (isLeap (getFullYear t + (getMonth t + 1) / 12)) ((getMonth t + 1) % 12) < getDate t →
      getFullYear (add t 1 .month) = getFullYear t + (getMonth t + 1) / 12 ∧
      getMonth (add t 1 .month) = (getMonth t + 1) % 12 + 1) := by
  have hm := getMonth_range t
  have hd := getDate_range t
  have htm := tms_range t
  have hdim := dim_lb (isLeap (getFullYear t)) (getMonth t) hm.1 hm.2
  have hadd : add t 1 .month = mkDate (mkDay (getFullYear t) (getMonth t + 1) (getDate t)) (tms t) := rfl
  rw [mkDay_norm (getFullYear t) (getMonth t + 1) (getDate t)] at hadd
  constructor
  · intro hle
    have hf := fields_of_mk (getFullYear t + (getMonth t + 1) / 12) ((getMonth t + 1) % 12)
      (getDate t) (tms t) (by omega) (by omega) (by omega) hle htm.1 htm.2
    rw [hadd]
    exact ⟨hf.1, hf.2.1⟩
  · intro hlt
    have hm2ne : (getMonth t + 1) % 12 ≠ 11 := by
      intro heq
      rw [heq] at hlt
      rw [dimAt11] at hlt
      have := dim_lb (isLeap (getFullYear t)) (getMonth t) hm.1 hm.2
      omega
    have hdimM2 := dim_lb (isLeap (getFullYear t + (getMonth t + 1) / 12)) ((getMonth t + 1) % 12)
      (by omega) (by omega)
    have hovf := mkDay_overflow (getFullYear t + (getMonth t + 1) / 12) ((getMonth t + 1) % 12)
      (getDate t) (by omega) (by omega) (by omega) hlt
    rw [hovf] at hadd
    have hdim2 := dim_lb (isLeap (getFullYear t + (getMonth t + 1) / 12)) ((getMonth t + 1) % 12 + 1)
      (by omega) (by omega)
    have hf := fields_of_mk (getFullYear t + (getMonth t + 1) / 12) ((getMonth t + 1) % 12 + 1)
      (getDate t - daysInMonth (isLeap (getFullYear t + (getMonth t + 1) / 12)) ((getMonth t + 1) % 12))
      (tms t) (by omega) (by omega) (by omega) (by omega) htm.1 htm.2
    rw [hadd]
    exact ⟨hf.1, hf.2.1⟩

/-! ## Claim theorems -/

/-- Claim C1 (code bug): for input `today` with a supplied reference
instant (`defaultDate` = 1970-01-01T00:00Z) and a system clock reading
1970-01-02T00:00Z, `parseNatural` resolves relative to the system clock and
returns the start of January 2, not the start of the reference instant's day
(January 1) as the spec and the repository's own `defaultDate` documentation
state. -/
theorem C1_keyword_uses_clock_not_reference :
    parseNatural (fun _ => none) 86400000 (strL ("today")) ⟨some 0, false⟩ =
      { date := some (startOfDay 86400000), confidence := mkRat 19 20,
        matched := strL ("today"), remaining := [] } ∧
    startOfDay 86400000 = 86400000 ∧ startOfDay 0 = 0 ∧ (86400000 : Int) ≠ 0 := by
  decide

/-- Claim C2 (counterexample): at T = 1970-01-31T00:00Z, adding one month
rolls over into March 3 (February 1970 has 28 days), so the month-difference
is 2, not 1. -/
theorem C2_counterexample :
    differenceIn (add 2592000000 1 .month) 2592000000 .month = 2 ∧
    ¬ differenceIn (add 2592000000 1 .month) 2592000000 .month = 1 := by
  decide

/-- Claim C2 (amended): `differenceIn(addUnits(T,1,month), T, month)` equals 1
for every T whose day-of-month also exists in the following month; when it
does not (native rollover), the result is 2 instead. -/
theorem C2_amended (t : Int) :
    (getDate t ≤ daysInMonth (isLeap (getFullYear t + (getMonth t + 1) / 12)) ((getMonth t + 1) % 12) →
      differenceIn (add t 1 .month) t .month = 1) ∧
    (daysInMonth (isLeap (getFullYear t + (getMonth t + 1) / 12)) ((getMonth t + 1) % 12) < getDate t →
      differenceIn (add t 1 .month) t .month = 2) := by
  have hm := getMonth_range t
  have hf := add_month_fields t
  constructor
  · intro hle
    obtain ⟨hy, hmo⟩ := hf.1 hle
    simp only [differenceIn]
    rw [hy, hmo]
    omega
  · intro hlt
    obtain ⟨hy, hmo⟩ := hf.2 hlt
    simp only [differenceIn]
    rw [hy, hmo]
    omega

/-- Witness for the amended C2 at T = 1970-01-01T00:00Z (day 1 fits in
February, so the difference is 1) and at T = 1970-01-31T00:00Z (day 31
overflows February, so the difference is 2). -/
theorem C2_amended_witness :
    (getDate 0 ≤ daysInMonth (isLeap (getFullYear 0 + (getMonth 0 + 1) / 12)) ((getMonth 0 + 1) % 12) ∧
      differenceIn (add 0 1 .month) 0 .month = 1) ∧
    (daysInMonth (isLeap (getFullYear 2592000000 + (getMonth 2592000000 + 1) / 12))
        ((getMonth 2592000000 + 1) % 12) < getDate 2592000000 ∧
      differenceIn (add 2592000000 1 .month) 2592000000 .month = 2) :=
  ⟨⟨by decide, (C2_amended 0).1 (by decide)⟩,
   ⟨by decide, (C2_amended 2592000000).2 (by decide)⟩⟩

/-- Claim C3 (counterexample): for a = 0, b = 1500 ms and unit second the code
returns `Math.floor(-1.5) = -2`, whereas the millisecond difference truncated
toward zero (`Int.div`) is -1. -/
theorem C3_counterexample :
    differenceIn 0 1500 .second = -2 ∧ Int.div (0 - 1500) 1000 = -1 ∧
    differenceIn 0 1500 .second ≠ Int.div (0 - 1500) 1000 := by
  decide

/-- Claim C3 (amended): for the six sub-calendar units `differenceIn` is the
signed millisecond difference in whole units rounded toward negative infinity
(floor division, characterised by the bracketing inequalities), and for
month/year it is the direct calendar-field subtraction, ignoring any day/time
remainder. -/
theorem C3_amended (a b : Int) :
    differenceIn a b .millisecond = a - b ∧
    (1000 * differenceIn a b .second ≤ a - b ∧
      a - b < 1000 * (differenceIn a b .second + 1)) ∧
    (60000 * differenceIn a b .minute ≤ a - b ∧
      a - b < 60000 * (differenceIn a b .minute + 1)) ∧
    (3600000 * differenceIn a b .hour ≤ a - b ∧
      a - b < 3600000 * (differenceIn a b .hour + 1)) ∧
    (86400000 * differenceIn a b .day ≤ a - b ∧
      a - b < 86400000 * (differenceIn a b .day + 1)) ∧
    (604800000 * differenceIn a b .week ≤ a - b ∧
      a - b < 604800000 * (differenceIn a b .week + 1)) ∧
    differenceIn a b .month = (getFullYear a - getFullYear b) * 12 + (getMonth a - getMonth b) ∧
    differenceIn a b .year = getFullYear a - getFullYear b := by
  simp only [differenceIn]
  refine ⟨trivial, ⟨?_, ?_⟩, ⟨?_, ?_⟩, ⟨?_, ?_⟩, ⟨?_, ?_⟩, ⟨?_, ?_⟩, trivial, trivial⟩ <;> omega

/-- Claim C6: with the strict option set, when the five recognizers all fail
on the normalized input, `parseNatural` skips the generic date-literal
fallback entirely — whatever the host date parser would return — and yields
no instant, confidence 0, empty `matched` and `remaining` equal to the
normalized input. -/
theorem C6_strict_skips_fallback (hostParse : List Char → Option Int) (sysNow : Int)
    (input : List Char) (dd : Option Int)
    (hkw : (parseRelativeKeywords sysNow (trimWs (lowerStr input))).date = none)
    (hrt : ∀ r, parseRelativeTime (dd.getD sysNow) (trimWs (lowerStr input)) = some r →
      r.date = none)
    (hwd : (parseWeekdays (dd.getD sysNow) (trimWs (lowerStr input))).date = none)
    (hmo : (parseMonthReferences (dd.getD sysNow) (trimWs (lowerStr input))).date = none)
    (hte : (parseTimeExpressions (dd.getD sysNow) (trimWs (lowerStr input))).date = none) :
    parseNatural hostParse sysNow input ⟨dd, true⟩ =
      { date := none, confidence := 0, matched := [],
        remaining := trimWs (lowerStr input) } := by
  cases hpr : parseRelativeTime (dd.getD sysNow) (trimWs (lowerStr input)) with
  | none =>
      simp [parseNatural, parseNaturalE, hkw, hpr]
  | some r =>
      have hr := hrt r hpr
      simp [parseNatural, parseNaturalE, hkw, hpr, hr, hwd, hmo, hte]

/-- Witness for C6: the valid absolute literal `2025-12-25` with a host parser
that accepts it still yields the empty result in strict mode. -/
theorem C6_strict_witness :
    parseNatural (fun _ => some 1766620800000) 0 (strL ("2025-12-25")) ⟨none, true⟩ =
      { date := none, confidence := 0, matched := [],
        remaining := trimWs (lowerStr (strL ("2025-12-25"))) } := by
  apply C6_strict_skips_fallback
  · decide
  · intro r hr
    have he : parseRelativeTime ((none : Option Int).getD 0)
        (trimWs (lowerStr (strL ("2025-12-25")))) =
        some (noMatch (strL ("2025-12-25"))) := by decide
    rw [he] at hr
    have hinj := Option.some.inj hr
    rw [← hinj]
    decide
  · decide
  · decide
  · decide

/-! ## Safety of the resolver chain -/

theorem unitWords_norm :
    ∀ w ∈ unitWords, (normalizeTimeUnit w).isSome ∧ (normalizeTimeUnit (w ++ [ 's' ])).isSome := by
  decide

theorem unitScan_normSome (tail : List Char → Bool) (r : List Char) :
    ∀ ws, (∀ w ∈ ws, (normalizeTimeUnit w).isSome ∧ (normalizeTimeUnit (w ++ [ 's' ])).isSome) →
    ∀ u, unitScan tail r ws = some u → (normalizeTimeUnit u).isSome := by
  intro ws
  induction ws with
  | nil => intro _ u h; simp [unitScan] at h
  | cons w ws ih =>
      intro hall u h
      unfold unitScan at h
      by_cases hp : w.isPrefixOf r
      · rw [if_pos hp] at h
        dsimp only at h
        split_ifs at h with h1 h2
        · have he := Option.some.inj h
          rw [← he]
          exact (hall w (List.mem_cons_self w ws)).2
        · have he := Option.some.inj h
          rw [← he]
          exact (hall w (List.mem_cons_self w ws)).1
        · exact ih (fun x hx => hall x (List.mem_cons_of_mem w hx)) u h
      · rw [if_neg hp] at h
        exact ih (fun x hx => hall x (List.mem_cons_of_mem w hx)) u h

theorem offsetCore_normSome (tail : List Char → Bool) (l : List Char) (n : Nat) (u : List Char)
    (h : offsetCore tail l = some (n, u)) : (normalizeTimeUnit u).isSome := by
  unfold offsetCore at h
  dsimp only at h
  split_ifs at h with h1
  split at h
  · simp at h
  · split_ifs at h with h2
    split at h
    · rename_i u2 hu2
      have he := Option.some.inj h
      have hu : u2 = u := by
        have := congrArg Prod.snd he
        simpa using this
      rw [← hu]
      exact unitScan_normSome tail _ unitWords unitWords_norm u2 hu2
    · simp at h

theorem futureMatch_normSome (l : List Char) (n : Nat) (u : List Char)
    (h : futureMatch l = some (n, u)) : (normalizeTimeUnit u).isSome := by
  unfold futureMatch at h
  split_ifs at h with h1
  · split at h
    · rename_i c rest heq
      split_ifs at h with h2
      · split at h
        · rename_i p hp
          obtain ⟨n2, u2⟩ := p
          have he := Option.some.inj h
          have : u2 = u := by
            have := congrArg Prod.snd he
            simpa using this
          rw [← this]
          exact offsetCore_normSome tailFutureOk _ n2 u2 hp
        · exact offsetCore_normSome tailFutureOk l n u h
      · exact offsetCore_normSome tailFutureOk l n u h
    · exact offsetCore_normSome tailFutureOk l n u h
  · exact offsetCore_normSome tailFutureOk l n u h

theorem parseRelativeTime_ne_none (dflt : Int) (l : List Char) :
    parseRelativeTime dflt l ≠ none := by
  unfold parseRelativeTime
  cases hf : futureMatch l with
  | some p =>
      obtain ⟨n, u⟩ := p
      have hu := futureMatch_normSome l n u hf
      cases hnu : normalizeTimeUnit u with
      | none => rw [hnu] at hu; simp at hu
      | some tu => simp [hnu]
  | none =>
      cases hp : pastMatch l with
      | some p =>
          obtain ⟨n, u⟩ := p
          have hu := offsetCore_normSome tailPastOk l n u hp
          cases hnu : normalizeTimeUnit u with
          | none => rw [hnu] at hu; simp at hu
          | some tu => simp [hnu]
      | none => simp

theorem parseNaturalE_isSome (hostParse : List Char → Option Int) (sysNow : Int)
    (input : List Char) (opts : ParseOptions) :
    (parseNaturalE hostParse sysNow input opts).isSome := by
  unfold parseNaturalE
  cases hpr : parseRelativeTime (opts.defaultDate.getD sysNow) (trimWs (lowerStr input)) with
  | none => exact absurd hpr (parseRelativeTime_ne_none _ _)
  | some r2 =>
      simp only [hpr]
      split_ifs <;> try simp
      cases hostParse input <;> simp

/-- Claim C7: for every input string and every options value the resolver
terminates with a well-formed result and never raises: the exception-modelling
variant always returns `some` of the total resolver's value, and in particular
the throwing branch of `normalizeTimeUnit` is unreachable from
`parseRelativeTime`. -/
theorem C7_resolver_never_throws :
    (∀ (hostParse : List Char → Option Int) (sysNow : Int) (input : List Char)
        (opts : ParseOptions),
      parseNaturalE hostParse sysNow input opts =
        some (parseNatural hostParse sysNow input opts)) ∧
    (∀ (dflt : Int) (l : List Char), parseRelativeTime dflt l ≠ none) := by
  constructor
  · intro hostParse sysNow input opts
    have h := parseNaturalE_isSome hostParse sysNow input opts
    unfold parseNatural
    obtain ⟨r, hr⟩ := Option.isSome_iff_exists.mp h
    rw [hr]
    rfl
  · exact parseRelativeTime_ne_none

/-- Witness for C7 at concrete inputs. -/
theorem C7_witness :
    parseNaturalE (fun _ => none) 0 (strL ("in 3 days")) ⟨none, false⟩ =
      some (parseNatural (fun _ => none) 0 (strL ("in 3 days")) ⟨none, false⟩) ∧
    parseRelativeTime 0 (strL ("3 months ago")) ≠ none :=
  ⟨C7_resolver_never_throws.1 (fun _ => none) 0 (strL ("in 3 days")) ⟨none, false⟩,
   C7_resolver_never_throws.2 0 (strL ("3 months ago"))⟩

/-! ## Shape of each recognizer's result -/

theorem parseRelativeKeywords_shape (sysNow : Int) (l : List Char) :
    parseRelativeKeywords sysNow l = noMatch l ∨
    ((parseRelativeKeywords sysNow l).date.isSome ∧
      (parseRelativeKeywords sysNow l).confidence = mkRat 19 20) := by
  unfold parseRelativeKeywords
  cases kwAlt sysNow l with
  | none => left; rfl
  | some p =>
      obtain ⟨m0, d⟩ := p
      right
      exact ⟨rfl, rfl⟩

theorem parseRelativeTime_shape (dflt : Int) (l : List Char) (r : NLPParseResult)
    (h : parseRelativeTime dflt l = some r) :
    r = noMatch l ∨
    (r.date.isSome ∧ r.confidence = mkRat 9 10 ∧ r.matched = l ∧ r.remaining = []) := by
  unfold parseRelativeTime at h
  split at h
  · split at h
    · right
      have he := Option.some.inj h
      rw [← he]
      exact ⟨rfl, rfl, rfl, rfl⟩
    · simp at h
  · split at h
    · split at h
      · right
        have he := Option.some.inj h
        rw [← he]
        exact ⟨rfl, rfl, rfl, rfl⟩
      · simp at h
    · left
      exact (Option.some.inj h).symm

theorem parseWeekdays_shape (dflt : Int) (l : List Char) :
    parseWeekdays dflt l = noMatch l ∨
    ((parseWeekdays dflt l).date.isSome ∧
      (parseWeekdays dflt l).confidence = mkRat 17 20 ∧
      (parseWeekdays dflt l).matched = l ∧ (parseWeekdays dflt l).remaining = []) := by
  unfold parseWeekdays
  cases hm : weekdayMatch l with
  | none => left; rfl
  | some p =>
      obtain ⟨mw, wd⟩ := p
      dsimp only
      split_ifs <;> first
        | (left; rfl)
        | (right; exact ⟨rfl, rfl, rfl, rfl⟩)

theorem parseMonthReferences_shape (dflt : Int) (l : List Char) :
    parseMonthReferences dflt l = noMatch l ∨
    ((parseMonthReferences dflt l).date.isSome ∧
      (parseMonthReferences dflt l).confidence = mkRat 4 5 ∧
      (parseMonthReferences dflt l).matched = l ∧
      (parseMonthReferences dflt l).remaining = []) := by
  unfold parseMonthReferences
  split_ifs <;> first
    | (left; rfl)
    | (right; exact ⟨rfl, rfl, rfl, rfl⟩)

theorem parseTimeExpressions_shape (dflt : Int) (l : List Char) :
    parseTimeExpressions dflt l = noMatch l ∨
    ((parseTimeExpressions dflt l).date.isSome ∧
      (parseTimeExpressions dflt l).confidence = mkRat 3 4 ∧
      (parseTimeExpressions dflt l).matched = l ∧
      (parseTimeExpressions dflt l).remaining = []) := by
  unfold parseTimeExpressions
  split_ifs <;> first
    | (left; rfl)
    | (right; exact ⟨rfl, rfl, rfl, rfl⟩)

theorem parseNatural_eq_of (hostParse : List Char → Option Int) (sysNow : Int)
    (input : List Char) (opts : ParseOptions) (r : NLPParseResult)
    (h : parseNaturalE hostParse sysNow input opts = some r) :
    parseNatural hostParse sysNow input opts = r := by
  unfold parseNatural
  rw [h]
  rfl

/-- Every resolver result is either the empty failure result or carries an
instant together with one of the six tier confidences. -/
theorem parseNatural_shape (hostParse : List Char → Option Int) (sysNow : Int)
    (input : List Char) (opts : ParseOptions) :
    (parseNatural hostParse sysNow input opts =
      { date := none, confidence := 0, matched := [],
        remaining := trimWs (lowerStr input) }) ∨
    ((parseNatural hostParse sysNow input opts).date.isSome ∧
      ((parseNatural hostParse sysNow input opts).confidence = mkRat 19 20 ∨
       (parseNatural hostParse sysNow input opts).confidence = mkRat 9 10 ∨
       (parseNatural hostParse sysNow input opts).confidence = mkRat 17 20 ∨
       (parseNatural hostParse sysNow input opts).confidence = mkRat 4 5 ∨
       (parseNatural hostParse sysNow input opts).confidence = mkRat 3 4 ∨
       (parseNatural hostParse sysNow input opts).confidence = mkRat 1 2)) := by
  by_cases h1 : (parseRelativeKeywords sysNow (trimWs (lowerStr input))).date.isSome
  · have hE : parseNaturalE hostParse sysNow input opts =
        some (parseRelativeKeywords sysNow (trimWs (lowerStr input))) := by
      unfold parseNaturalE
      simp [h1]
    rw [parseNatural_eq_of _ _ _ _ _ hE]
    rcases parseRelativeKeywords_shape sysNow (trimWs (lowerStr input)) with hs | hs
    · rw [hs] at h1; simp [noMatch] at h1
    · right; exact ⟨hs.1, Or.inl hs.2⟩
  · cases hpr : parseRelativeTime (opts.defaultDate.getD sysNow) (trimWs (lowerStr input)) with
    | none => exact absurd hpr (parseRelativeTime_ne_none _ _)
    | some r2 =>
        by_cases h2 : r2.date.isSome
        · have hE : parseNaturalE hostParse sysNow input opts = some r2 := by
            unfold parseNaturalE
            simp [h1, hpr, h2]
          rw [parseNatural_eq_of _ _ _ _ _ hE]
          rcases parseRelativeTime_shape _ _ r2 hpr with hs | hs
          · rw [hs] at h2; simp [noMatch] at h2
          · right; exact ⟨h2, Or.inr (Or.inl hs.2.1)⟩
        · by_cases h3 : (parseWeekdays (opts.defaultDate.getD sysNow) (trimWs (lowerStr input))).date.isSome
          · have hE : parseNaturalE hostParse sysNow input opts =
                some (parseWeekdays (opts.defaultDate.getD sysNow) (trimWs (lowerStr input))) := by
              unfold parseNaturalE
              simp [h1, hpr, h2, h3]
            rw [parseNatural_eq_of _ _ _ _ _ hE]
            rcases parseWeekdays_shape (opts.defaultDate.getD sysNow) (trimWs (lowerStr input)) with hs | hs
            · rw [hs] at h3; simp [noMatch] at h3
            · right; exact ⟨hs.1, Or.inr (Or.inr (Or.inl hs.2.1))⟩
          · by_cases h4 : (parseMonthReferences (opts.defaultDate.getD sysNow) (trimWs (lowerStr input))).date.isSome
            · have hE : parseNaturalE hostParse sysNow input opts =
                  some (parseMonthReferences (opts.defaultDate.getD sysNow) (trimWs (lowerStr input))) := by
                unfold parseNaturalE
                simp [h1, hpr, h2, h3, h4]
              rw [parseNatural_eq_of _ _ _ _ _ hE]
              rcases parseMonthReferences_shape (opts.defaultDate.getD sysNow) (trimWs (lowerStr input)) with hs | hs
              · rw [hs] at h4; simp [noMatch] at h4
              · right; exact ⟨hs.1, Or.inr (Or.inr (Or.inr (Or.inl hs.2.1)))⟩
            · by_cases h5 : (parseTimeExpressions (opts.defaultDate.getD sysNow) (trimWs (lowerStr input))).date.isSome
              · have hE : parseNaturalE hostParse sysNow input opts =
                    some (parseTimeExpressions (opts.defaultDate.getD sysNow) (trimWs (lowerStr input))) := by
                  unfold parseNaturalE
                  simp [h1, hpr, h2, h3, h4, h5]
                rw [parseNatural_eq_of _ _ _ _ _ hE]
                rcases parseTimeExpressions_shape (opts.defaultDate.getD sysNow) (trimWs (lowerStr input)) with hs | hs
                · rw [hs] at h5; simp [noMatch] at h5
                · right; exact ⟨hs.1, Or.inr (Or.inr (Or.inr (Or.inr (Or.inl hs.2.1))))⟩
              · by_cases h6 : opts.strict
                · have hE : parseNaturalE hostParse sysNow input opts =
                      some { date := none, confidence := 0, matched := [],
                             remaining := trimWs (lowerStr input) } := by
                    unfold parseNaturalE
                    simp [h1, hpr, h2, h3, h4, h5, h6]
                  rw [parseNatural_eq_of _ _ _ _ _ hE]
                  left; rfl
                · cases hh : hostParse input with
                  | some d =>
                      have hE : parseNaturalE hostParse sysNow input opts =
                          some { date := some d, confidence := mkRat 1 2,
                                 matched := input, remaining := [] } := by
                        unfold parseNaturalE
                        simp [h1, hpr, h2, h3, h4, h5, h6, hh]
                      rw [parseNatural_eq_of _ _ _ _ _ hE]
                      right
                      exact ⟨rfl, Or.inr (Or.inr (Or.inr (Or.inr (Or.inr rfl))))⟩
                  | none =>
                      have hE : parseNaturalE hostParse sysNow input opts =
                          some { date := none, confidence := 0, matched := [],
                                 remaining := trimWs (lowerStr input) } := by
                        unfold parseNaturalE
                        simp [h1, hpr, h2, h3, h4, h5, h6, hh]
                      rw [parseNatural_eq_of _ _ _ _ _ hE]
                      left; rfl

/-- Claim C8: the returned instant is absent exactly when the confidence is 0,
and every present instant carries one of the positive tier confidences
(0.95, 0.9, 0.85, 0.8, 0.75 or the fallback 0.5). -/
theorem C8_instant_absent_iff_zero_confidence (hostParse : List Char → Option Int)
    (sysNow : Int) (input : List Char) (opts : ParseOptions) :
    ((parseNatural hostParse sysNow input opts).date = none ↔
      (parseNatural hostParse sysNow input opts).confidence = 0) ∧
    ((parseNatural hostParse sysNow input opts).date.isSome →
      ((parseNatural hostParse sysNow input opts).confidence = mkRat 19 20 ∨
       (parseNatural hostParse sysNow input opts).confidence = mkRat 9 10 ∨
       (parseNatural hostParse sysNow input opts).confidence = mkRat 17 20 ∨
       (parseNatural hostParse sysNow input opts).confidence = mkRat 4 5 ∨
       (parseNatural hostParse sysNow input opts).confidence = mkRat 3 4 ∨
       (parseNatural hostParse sysNow input opts).confidence = mkRat 1 2)) := by
  rcases parseNatural_shape hostParse sysNow input opts with hs | hs
  · rw [hs]
    constructor
    · exact ⟨fun _ => rfl, fun _ => rfl⟩
    · intro h; simp at h
  · obtain ⟨hd, hc⟩ := hs
    constructor
    · constructor
      · intro h; rw [h] at hd; simp at hd
      · intro h
        rcases hc with hc | hc | hc | hc | hc | hc <;> rw [hc] at h <;>
          exact absurd h (by decide)
    · intro _; exact hc

/-- Witness for C8 at the concrete successful input `today` and the failing
input `xyz`. -/
theorem C8_witness :
    ((parseNatural (fun _ => none) 0 (strL ("today")) ⟨none, false⟩).date = none ↔
      (parseNatural (fun _ => none) 0 (strL ("today")) ⟨none, false⟩).confidence = 0) ∧
    ((parseNatural (fun _ => none) 0 (strL ("today")) ⟨none, false⟩).date.isSome →
      ((parseNatural (fun _ => none) 0 (strL ("today")) ⟨none, false⟩).confidence = mkRat 19 20 ∨
       (parseNatural (fun _ => none) 0 (strL ("today")) ⟨none, false⟩).confidence = mkRat 9 10 ∨
       (parseNatural (fun _ => none) 0 (strL ("today")) ⟨none, false⟩).confidence = mkRat 17 20 ∨
       (parseNatural (fun _ => none) 0 (strL ("today")) ⟨none, false⟩).confidence = mkRat 4 5 ∨
       (parseNatural (fun _ => none) 0 (strL ("today")) ⟨none, false⟩).confidence = mkRat 3 4 ∨
       (parseNatural (fun _ => none) 0 (strL ("today")) ⟨none, false⟩).confidence = mkRat 1 2)) :=
  C8_instant_absent_iff_zero_confidence (fun _ => none) 0 (strL ("today")) ⟨none, false⟩

/-- Claim C10: the relative-offset, weekday, period-boundary and time-of-day
recognizers are anchored at both ends, so any successful match leaves an empty
`remaining`; a phrase of theirs followed by extra text (e.g. `in 3 days
please`) matches none of the five recognizers and falls through to the
fallback tier. -/
theorem C10_anchored_recognizers_leave_no_remainder :
    (∀ (dflt : Int) (l : List Char) (r : NLPParseResult),
        parseRelativeTime dflt l = some r → r.date.isSome → r.remaining = []) ∧
    (∀ (dflt : Int) (l : List Char),
        (parseWeekdays dflt l).date.isSome → (parseWeekdays dflt l).remaining = []) ∧
    (∀ (dflt : Int) (l : List Char),
        (parseMonthReferences dflt l).date.isSome →
          (parseMonthReferences dflt l).remaining = []) ∧
    (∀ (dflt : Int) (l : List Char),
        (parseTimeExpressions dflt l).date.isSome →
          (parseTimeExpressions dflt l).remaining = []) ∧
    ((parseRelativeKeywords 0 (strL ("in 3 days please"))).date = none ∧
     parseRelativeTime 0 (strL ("in 3 days please")) =
       some (noMatch (strL ("in 3 days please"))) ∧
     (parseWeekdays 0 (strL ("in 3 days please"))).date = none ∧
     (parseMonthReferences 0 (strL ("in 3 days please"))).date = none ∧
     (parseTimeExpressions 0 (strL ("in 3 days please"))).date = none ∧
     parseNatural (fun _ => some 123) 0 (strL ("in 3 days please")) ⟨none, false⟩ =
       { date := some 123, confidence := mkRat 1 2,
         matched := strL ("in 3 days please"), remaining := [] }) := by
  refine ⟨?_, ?_, ?_, ?_, ?_⟩
  · intro dflt l r h hd
    rcases parseRelativeTime_shape dflt l r h with hs | hs
    · rw [hs] at hd; simp [noMatch] at hd
    · exact hs.2.2.2
  · intro dflt l hd
    rcases parseWeekdays_shape dflt l with hs | hs
    · rw [hs] at hd; simp [noMatch] at hd
    · exact hs.2.2.2
  · intro dflt l hd
    rcases parseMonthReferences_shape dflt l with hs | hs
    · rw [hs] at hd; simp [noMatch] at hd
    · exact hs.2.2.2
  · intro dflt l hd
    rcases parseTimeExpressions_shape dflt l with hs | hs
    · rw [hs] at hd; simp [noMatch] at hd
    · exact hs.2.2.2
  · exact ⟨by decide, by decide, by decide, by decide, by decide, by decide⟩

/-- Witness for C10: the anchored weekday recognizer leaves no remainder on
`next monday`. -/
theorem C10_witness :
    (parseWeekdays 0 (strL ("next monday"))).remaining = [] :=
  C10_anchored_recognizers_leave_no_remainder.2.1 0 (strL ("next monday")) (by decide)

/-- Evaluation of `parseWeekdays` on a matched phrase: the result is the
start of the day `daysToAdd` days from the reference instant. -/
theorem resolvedDay (t k : Int) :
    setHoursF (setDateF t (getDate t + k)) 0 0 0 0 = startOfDay t + k * 86400000 := by
  rw [setDateF_shift]
  show startOfDay (t + k * 86400000) = _
  exact startOfDay_shift t k

theorem parseWeekdays_eval (T : Int) (input mw wd : List Char) (td : Int)
    (hm : weekdayMatch input = some (mw, wd))
    (ht : indexOfFrom wd weekdayNames 0 = td) (htd : (td == -1) = false) :
    parseWeekdays T input =
      { date := some (startOfDay T +
          (if mw == strL ("next") then (if td - getDay T ≤ 0 then td - getDay T + 7 else td - getDay T)
           else if mw == strL ("last") then (if td - getDay T ≥ 0 then td - getDay T - 7 else td - getDay T)
           else if mw == strL ("this") then (if td - getDay T < 0 then td - getDay T + 7 else td - getDay T)
           else td - getDay T) * 86400000),
        confidence := mkRat 17 20, matched := input, remaining := [] } := by
  unfold parseWeekdays
  rw [hm]
  dsimp only
  rw [ht]
  simp only [htd, Bool.false_eq_true, if_false]
  rw [resolvedDay]

/-- Claim C4: for every reference instant T and every phrase
`(next|last|this) <weekday>`, the recognizer resolves with the claimed
tie-break policy (`next` strictly future, `last` strictly past, `this` the
nearest occurrence at or after the reference day), producing the start of the
resolved day at confidence 0.85 with the whole phrase matched. -/
theorem C4_weekday_tie_break (T : Int) (mw wd : List Char)
    (hmw : mw ∈ modifierNames) (hwd : wd ∈ weekdayNames) :
    parseWeekdays T (mw ++ [ ' ' ] ++ wd) =
      { date := some (startOfDay T +
          (if mw == strL ("next") then (if indexOfFrom wd weekdayNames 0 - getDay T ≤ 0 then indexOfFrom wd weekdayNames 0 - getDay T + 7 else indexOfFrom wd weekdayNames 0 - getDay T)
       else if mw == strL ("last") then (if indexOfFrom wd weekdayNames 0 - getDay T ≥ 0 then indexOfFrom wd weekdayNames 0 - getDay T - 7 else indexOfFrom wd weekdayNames 0 - getDay T)
       else if mw == strL ("this") then (if indexOfFrom wd weekdayNames 0 - getDay T < 0 then indexOfFrom wd weekdayNames 0 - getDay T + 7 else indexOfFrom wd weekdayNames 0 - getDay T)
       else indexOfFrom wd weekdayNames 0 - getDay T) * 86400000),
        confidence := mkRat 17 20, matched := mw ++ [ ' ' ] ++ wd, remaining := [] } ∧
    ((mw == strL ("next")) = true →
      1 ≤ (if mw == strL ("next") then (if indexOfFrom wd weekdayNames 0 - getDay T ≤ 0 then indexOfFrom wd weekdayNames 0 - getDay T + 7 else indexOfFrom wd weekdayNames 0 - getDay T)
       else if mw == strL ("last") then (if indexOfFrom wd weekdayNames 0 - getDay T ≥ 0 then indexOfFrom wd weekdayNames 0 - getDay T - 7 else indexOfFrom wd weekdayNames 0 - getDay T)
       else if mw == strL ("this") then (if indexOfFrom wd weekdayNames 0 - getDay T < 0 then indexOfFrom wd weekdayNames 0 - getDay T + 7 else indexOfFrom wd weekdayNames 0 - getDay T)
       else indexOfFrom wd weekdayNames 0 - getDay T) ∧ (if mw == strL ("next") then (if indexOfFrom wd weekdayNames 0 - getDay T ≤ 0 then indexOfFrom wd weekdayNames 0 - getDay T + 7 else indexOfFrom wd weekdayNames 0 - getDay T)
       else if mw == strL ("last") then (if indexOfFrom wd weekdayNames 0 - getDay T ≥ 0 then indexOfFrom wd weekdayNames 0 - getDay T - 7 else indexOfFrom wd weekdayNames 0 - getDay T)
       else if mw == strL ("this") then (if indexOfFrom wd weekdayNames 0 - getDay T < 0 then indexOfFrom wd weekdayNames 0 - getDay T + 7 else indexOfFrom wd weekdayNames 0 - getDay T)
       else indexOfFrom wd weekdayNames 0 - getDay T) ≤ 7) ∧
    ((mw == strL ("last")) = true →
      -7 ≤ (if mw == strL ("next") then (if indexOfFrom wd weekdayNames 0 - getDay T ≤ 0 then indexOfFrom wd weekdayNames 0 - getDay T + 7 else indexOfFrom wd weekdayNames 0 - getDay T)
       else if mw == strL ("last") then (if indexOfFrom wd weekdayNames 0 - getDay T ≥ 0 then indexOfFrom wd weekdayNames 0 - getDay T - 7 else indexOfFrom wd weekdayNames 0 - getDay T)
       else if mw == strL ("this") then (if indexOfFrom wd weekdayNames 0 - getDay T < 0 then indexOfFrom wd weekdayNames 0 - getDay T + 7 else indexOfFrom wd weekdayNames 0 - getDay T)
       else indexOfFrom wd weekdayNames 0 - getDay T) ∧ (if mw == strL ("next") then (if indexOfFrom wd weekdayNames 0 - getDay T ≤ 0 then indexOfFrom wd weekdayNames 0 - getDay T + 7 else indexOfFrom wd weekdayNames 0 - getDay T)
       else if mw == strL ("last") then (if indexOfFrom wd weekdayNames 0 - getDay T ≥ 0 then indexOfFrom wd weekdayNames 0 - getDay T - 7 else indexOfFrom wd weekdayNames 0 - getDay T)
       else if mw == strL ("this") then (if indexOfFrom wd weekdayNames 0 - getDay T < 0 then indexOfFrom wd weekdayNames 0 - getDay T + 7 else indexOfFrom wd weekdayNames 0 - getDay T)
       else indexOfFrom wd weekdayNames 0 - getDay T) ≤ -1) ∧
    ((mw == strL ("this")) = true →
      0 ≤ (if mw == strL ("next") then (if indexOfFrom wd weekdayNames 0 - getDay T ≤ 0 then indexOfFrom wd weekdayNames 0 - getDay T + 7 else indexOfFrom wd weekdayNames 0 - getDay T)
       else if mw == strL ("last") then (if indexOfFrom wd weekdayNames 0 - getDay T ≥ 0 then indexOfFrom wd weekdayNames 0 - getDay T - 7 else indexOfFrom wd weekdayNames 0 - getDay T)
       else if mw == strL ("this") then (if indexOfFrom wd weekdayNames 0 - getDay T < 0 then indexOfFrom wd weekdayNames 0 - getDay T + 7 else indexOfFrom wd weekdayNames 0 - getDay T)
       else indexOfFrom wd weekdayNames 0 - getDay T) ∧ (if mw == strL ("next") then (if indexOfFrom wd weekdayNames 0 - getDay T ≤ 0 then indexOfFrom wd weekdayNames 0 - getDay T + 7 else indexOfFrom wd weekdayNames 0 - getDay T)
       else if mw == strL ("last") then (if indexOfFrom wd weekdayNames 0 - getDay T ≥ 0 then indexOfFrom wd weekdayNames 0 - getDay T - 7 else indexOfFrom wd weekdayNames 0 - getDay T)
       else if mw == strL ("this") then (if indexOfFrom wd weekdayNames 0 - getDay T < 0 then indexOfFrom wd weekdayNames 0 - getDay T + 7 else indexOfFrom wd weekdayNames 0 - getDay T)
       else indexOfFrom wd weekdayNames 0 - getDay T) ≤ 6) := by
  have hg := getDay_range T
  fin_cases hmw <;> fin_cases hwd
  · refine ⟨?_, ?_, ?_, ?_⟩
    · exact parseWeekdays_eval T _ (strL ("next")) (strL ("sunday")) 0 (by decide) (by decide) (by decide)
    · intro h2
      have hidx : indexOfFrom (strL ("sunday")) weekdayNames 0 = 0 := by decide
      have hx1 : (strL ("next") == strL ("next")) = true := by decide
      have hx2 : (strL ("next") == strL ("last")) = false := by decide
      have hx3 : (strL ("next") == strL ("this")) = false := by decide
      simp only [hx1, hx2, hx3, Bool.false_eq_true, eq_self_iff_true, if_true, if_false]
      constructor <;> split_ifs <;> omega
    · intro h2
      exact absurd h2 (by decide)
    · intro h2
      exact absurd h2 (by decide)
  · refine ⟨?_, ?_, ?_, ?_⟩
    · exact parseWeekdays_eval T _ (strL ("next")) (strL ("monday")) 1 (by decide) (by decide) (by decide)
    · intro h2
      have hidx : indexOfFrom (strL ("monday")) weekdayNames 0 = 1 := by decide
      have hx1 : (strL ("next") == strL ("next")) = true := by decide
      have hx2 : (strL ("next") == strL ("last")) = false := by decide
      have hx3 : (strL ("next") == strL ("this")) = false := by decide
      simp only [hx1, hx2, hx3, Bool.false_eq_true, eq_self_iff_true, if_true, if_false]
      constructor <;> split_ifs <;> omega
    · intro h2
      exact absurd h2 (by decide)
    · intro h2
      exact absurd h2 (by decide)
  · refine ⟨?_, ?_, ?_, ?_⟩
    · exact parseWeekdays_eval T _ (strL ("next")) (strL ("tuesday")) 2 (by decide) (by decide) (by decide)
    · intro h2
      have hidx : indexOfFrom (strL ("tuesday")) weekdayNames 0 = 2 := by decide
      have hx1 : (strL ("next") == strL ("next")) = true := by decide
      have hx2 : (strL ("next") == strL ("last")) = false := by decide
      have hx3 : (strL ("next") == strL ("this")) = false := by decide
      simp only [hx1, hx2, hx3, Bool.false_eq_true, eq_self_iff_true, if_true, if_false]
      constructor <;> split_ifs <;> omega
    · intro h2
      exact absurd h2 (by decide)
    · intro h2
      exact absurd h2 (by decide)
  · refine ⟨?_, ?_, ?_, ?_⟩
    · exact parseWeekdays_eval T _ (strL ("next")) (strL ("wednesday")) 3 (by decide) (by decide) (by decide)
    · intro h2
      have hidx : indexOfFrom (strL ("wednesday")) weekdayNames 0 = 3 := by decide
      have hx1 : (strL ("next") == strL ("next")) = true := by decide
      have hx2 : (strL ("next") == strL ("last")) = false := by decide
      have hx3 : (strL ("next") == strL ("this")) = false := by decide
      simp only [hx1, hx2, hx3, Bool.false_eq_true, eq_self_iff_true, if_true, if_false]
      constructor <;> split_ifs <;> omega
    · intro h2
      exact absurd h2 (by decide)
    · intro h2
      exact absurd h2 (by decide)
  · refine ⟨?_, ?_, ?_, ?_⟩
    · exact parseWeekdays_eval T _ (strL ("next")) (strL ("thursday")) 4 (by decide) (by decide) (by decide)
    · intro h2
      have hidx : indexOfFrom (strL ("thursday")) weekdayNames 0 = 4 := by decide
      have hx1 : (strL ("next") == strL ("next")) = true := by decide
      have hx2 : (strL ("next") == strL ("last")) = false := by decide
      have hx3 : (strL ("next") == strL ("this")) = false := by decide
      simp only [hx1, hx2, hx3, Bool.false_eq_true, eq_self_iff_true, if_true, if_false]
      constructor <;> split_ifs <;> omega
    · intro h2
      exact absurd h2 (by decide)
    · intro h2
      exact absurd h2 (by decide)
  · refine ⟨?_, ?_, ?_, ?_⟩
    · exact parseWeekdays_eval T _ (strL ("next")) (strL ("friday")) 5 (by decide) (by decide) (by decide)
    · intro h2
      have hidx : indexOfFrom (strL ("friday")) weekdayNames 0 = 5 := by decide
      have hx1 : (strL ("next") == strL ("next")) = true := by decide
      have hx2 : (strL ("next") == strL ("last")) = false := by decide
      have hx3 : (strL ("next") == strL ("this")) = false := by decide
      simp only [hx1, hx2, hx3, Bool.false_eq_true, eq_self_iff_true, if_true, if_false]
      constructor <;> split_ifs <;> omega
    · intro h2
      exact absurd h2 (by decide)
    · intro h2
      exact absurd h2 (by decide)
  · refine ⟨?_, ?_, ?_, ?_⟩
    · exact parseWeekdays_eval T _ (strL ("next")) (strL ("saturday")) 6 (by decide) (by decide) (by decide)
    · intro h2
      have hidx : indexOfFrom (strL ("saturday")) weekdayNames 0 = 6 := by decide
      have hx1 : (strL ("next") == strL ("next")) = true := by decide
      have hx2 : (strL ("next") == strL ("last")) = false := by decide
      have hx3 : (strL ("next") == strL ("this")) = false := by decide
      simp only [hx1, hx2, hx3, Bool.false_eq_true, eq_self_iff_true, if_true, if_false]
      constructor <;> split_ifs <;> omega
    · intro h2
      exact absurd h2 (by decide)
    · intro h2
      exact absurd h2 (by decide)
  · refine ⟨?_, ?_, ?_, ?_⟩
    · exact parseWeekdays_eval T _ (strL ("last")) (strL ("sunday")) 0 (by decide) (by decide) (by decide)
    · intro h2
      exact absurd h2 (by decide)
    · intro h2
      have hidx : indexOfFrom (strL ("sunday")) weekdayNames 0 = 0 := by decide
      have hx1 : (strL ("last") == strL ("next")) = false := by decide
      have hx2 : (strL ("last") == strL ("last")) = true := by decide
      have hx3 : (strL ("last") == strL ("this")) = false := by decide
      simp only [hx1, hx2, hx3, Bool.false_eq_true, eq_self_iff_true, if_true, if_false]
      constructor <;> split_ifs <;> omega
    · intro h2
      exact absurd h2 (by decide)
  · refine ⟨?_, ?_, ?_, ?_⟩
    · exact parseWeekdays_eval T _ (strL ("last")) (strL ("monday")) 1 (by decide) (by decide) (by decide)
    · intro h2
      exact absurd h2 (by decide)
    · intro h2
      have hidx : indexOfFrom (strL ("monday")) weekdayNames 0 = 1 := by decide
      have hx1 : (strL ("last") == strL ("next")) = false := by decide
      have hx2 : (strL ("last") == strL ("last")) = true := by decide
      have hx3 : (strL ("last") == strL ("this")) = false := by decide
      simp only [hx1, hx2, hx3, Bool.false_eq_true, eq_self_iff_true, if_true, if_false]
      constructor <;> split_ifs <;> omega
    · intro h2
      exact absurd h2 (by decide)
  · refine ⟨?_, ?_, ?_, ?_⟩
    · exact parseWeekdays_eval T _ (strL ("last")) (strL ("tuesday")) 2 (by decide) (by decide) (by decide)
    · intro h2
      exact absurd h2 (by decide)
    · intro h2
      have hidx : indexOfFrom (strL ("tuesday")) weekdayNames 0 = 2 := by decide
      have hx1 : (strL ("last") == strL ("next")) = false := by decide
      have hx2 : (strL ("last") == strL ("last")) = true := by decide
      have hx3 : (strL ("last") == strL ("this")) = false := by decide
      simp only [hx1, hx2, hx3, Bool.false_eq_true, eq_self_iff_true, if_true, if_false]
      constructor <;> split_ifs <;> omega
    · intro h2
      exact absurd h2 (by decide)
  · refine ⟨?_, ?_, ?_, ?_⟩
    · exact parseWeekdays_eval T _ (strL ("last")) (strL ("wednesday")) 3 (by decide) (by decide) (by decide)
    · intro h2
      exact absurd h2 (by decide)
    · intro h2
      have hidx : indexOfFrom (strL ("wednesday")) weekdayNames 0 = 3 := by decide
      have hx1 : (strL ("last") == strL ("next")) = false := by decide
      have hx2 : (strL ("last") == strL ("last")) = true := by decide
      have hx3 : (strL ("last") == strL ("this")) = false := by decide
      simp only [hx1, hx2, hx3, Bool.false_eq_true, eq_self_iff_true, if_true, if_false]
      constructor <;> split_ifs <;> omega
    · intro h2
      exact absurd h2 (by decide)
  · refine ⟨?_, ?_, ?_, ?_⟩
    · exact parseWeekdays_eval T _ (strL ("last")) (strL ("thursday")) 4 (by decide) (by decide) (by decide)
    · intro h2
      exact absurd h2 (by decide)
    · intro h2
      have hidx : indexOfFrom (strL ("thursday")) weekdayNames 0 = 4 := by decide
      have hx1 : (strL ("last") == strL ("next")) = false := by decide
      have hx2 : (strL ("last") == strL ("last")) = true := by decide
      have hx3 : (strL ("last") == strL ("this")) = false := by decide
      simp only [hx1, hx2, hx3, Bool.false_eq_true, eq_self_iff_true, if_true, if_false]
      constructor <;> split_ifs <;> omega
    · intro h2
      exact absurd h2 (by decide)
  · refine ⟨?_, ?_, ?_, ?_⟩
    · exact parseWeekdays_eval T _ (strL ("last")) (strL ("friday")) 5 (by decide) (by decide) (by decide)
    · intro h2
      exact absurd h2 (by decide)
    · intro h2
      have hidx : indexOfFrom (strL ("friday")) weekdayNames 0 = 5 := by decide
      have hx1 : (strL ("last") == strL ("next")) = false := by decide
      have hx2 : (strL ("last") == strL ("last")) = true := by decide
      have hx3 : (strL ("last") == strL ("this")) = false := by decide
      simp only [hx1, hx2, hx3, Bool.false_eq_true, eq_self_iff_true, if_true, if_false]
      constructor <;> split_ifs <;> omega
    · intro h2
      exact absurd h2 (by decide)
  · refine ⟨?_, ?_, ?_, ?_⟩
    · exact parseWeekdays_eval T _ (strL ("last")) (strL ("saturday")) 6 (by decide) (by decide) (by decide)
    · intro h2
      exact absurd h2 (by decide)
    · intro h2
      have hidx : indexOfFrom (strL ("saturday")) weekdayNames 0 = 6 := by decide
      have hx1 : (strL ("last") == strL ("next")) = false := by decide
      have hx2 : (strL ("last") == strL ("last")) = true := by decide
      have hx3 : (strL ("last") == strL ("this")) = false := by decide
      simp only [hx1, hx2, hx3, Bool.false_eq_true, eq_self_iff_true, if_true, if_false]
      constructor <;> split_ifs <;> omega
    · intro h2
      exact absurd h2 (by decide)
  · refine ⟨?_, ?_, ?_, ?_⟩
    · exact parseWeekdays_eval T _ (strL ("this")) (strL ("sunday")) 0 (by decide) (by decide) (by decide)
    · intro h2
      exact absurd h2 (by decide)
    · intro h2
      exact absurd h2 (by decide)
    · intro h2
      have hidx : indexOfFrom (strL ("sunday")) weekdayNames 0 = 0 := by decide
      have hx1 : (strL ("this") == strL ("next")) = false := by decide
      have hx2 : (strL ("this") == strL ("last")) = false := by decide
      have hx3 : (strL ("this") == strL ("this")) = true := by decide
      simp only [hx1, hx2, hx3, Bool.false_eq_true, eq_self_iff_true, if_true, if_false]
      constructor <;> split_ifs <;> omega
  · refine ⟨?_, ?_, ?_, ?_⟩
    · exact parseWeekdays_eval T _ (strL ("this")) (strL ("monday")) 1 (by decide) (by decide) (by decide)
    · intro h2
      exact absurd h2 (by decide)
    · intro h2
      exact absurd h2 (by decide)
    · intro h2
      have hidx : indexOfFrom (strL ("monday")) weekdayNames 0 = 1 := by decide
      have hx1 : (strL ("this") == strL ("next")) = false := by decide
      have hx2 : (strL ("this") == strL ("last")) = false := by decide
      have hx3 : (strL ("this") == strL ("this")) = true := by decide
      simp only [hx1, hx2, hx3, Bool.false_eq_true, eq_self_iff_true, if_true, if_false]
      constructor <;> split_ifs <;> omega
  · refine ⟨?_, ?_, ?_, ?_⟩
    · exact parseWeekdays_eval T _ (strL ("this")) (strL ("tuesday")) 2 (by decide) (by decide) (by decide)
    · intro h2
      exact absurd h2 (by decide)
    · intro h2
      exact absurd h2 (by decide)
    · intro h2
      have hidx : indexOfFrom (strL ("tuesday")) weekdayNames 0 = 2 := by decide
      have hx1 : (strL ("this") == strL ("next")) = false := by decide
      have hx2 : (strL ("this") == strL ("last")) = false := by decide
      have hx3 : (strL ("this") == strL ("this")) = true := by decide
      simp only [hx1, hx2, hx3, Bool.false_eq_true, eq_self_iff_true, if_true, if_false]
      constructor <;> split_ifs <;> omega
  · refine ⟨?_, ?_, ?_, ?_⟩
    · exact parseWeekdays_eval T _ (strL ("this")) (strL ("wednesday")) 3 (by decide) (by decide) (by decide)
    · intro h2
      exact absurd h2 (by decide)
    · intro h2
      exact absurd h2 (by decide)
    · intro h2
      have hidx : indexOfFrom (strL ("wednesday")) weekdayNames 0 = 3 := by decide
      have hx1 : (strL ("this") == strL ("next")) = false := by decide
      have hx2 : (strL ("this") == strL ("last")) = false := by decide
      have hx3 : (strL ("this") == strL ("this")) = true := by decide
      simp only [hx1, hx2, hx3, Bool.false_eq_true, eq_self_iff_true, if_true, if_false]
      constructor <;> split_ifs <;> omega
  · refine ⟨?_, ?_, ?_, ?_⟩
    · exact parseWeekdays_eval T _ (strL ("this")) (strL ("thursday")) 4 (by decide) (by decide) (by decide)
    · intro h2
      exact absurd h2 (by decide)
    · intro h2
      exact absurd h2 (by decide)
    · intro h2
      have hidx : indexOfFrom (strL ("thursday")) weekdayNames 0 = 4 := by decide
      have hx1 : (strL ("this") == strL ("next")) = false := by decide
      have hx2 : (strL ("this") == strL ("last")) = false := by decide
      have hx3 : (strL ("this") == strL ("this")) = true := by decide
      simp only [hx1, hx2, hx3, Bool.false_eq_true, eq_self_iff_true, if_true, if_false]
      constructor <;> split_ifs <;> omega
  · refine ⟨?_, ?_, ?_, ?_⟩
    · exact parseWeekdays_eval T _ (strL ("this")) (strL ("friday")) 5 (by decide) (by decide) (by decide)
    · intro h2
      exact absurd h2 (by decide)
    · intro h2
      exact absurd h2 (by decide)
    · intro h2
      have hidx : indexOfFrom (strL ("friday")) weekdayNames 0 = 5 := by decide
      have hx1 : (strL ("this") == strL ("next")) = false := by decide
      have hx2 : (strL ("this") == strL ("last")) = false := by decide
      have hx3 : (strL ("this") == strL ("this")) = true := by decide
      simp only [hx1, hx2, hx3, Bool.false_eq_true, eq_self_iff_true, if_true, if_false]
      constructor <;> split_ifs <;> omega
  · refine ⟨?_, ?_, ?_, ?_⟩
    · exact parseWeekdays_eval T _ (strL ("this")) (strL ("saturday")) 6 (by decide) (by decide) (by decide)
    · intro h2
      exact absurd h2 (by decide)
    · intro h2
      exact absurd h2 (by decide)
    · intro h2
      have hidx : indexOfFrom (strL ("saturday")) weekdayNames 0 = 6 := by decide
      have hx1 : (strL ("this") == strL ("next")) = false := by decide
      have hx2 : (strL ("this") == strL ("last")) = false := by decide
      have hx3 : (strL ("this") == strL ("this")) = true := by decide
      simp only [hx1, hx2, hx3, Bool.false_eq_true, eq_self_iff_true, if_true, if_false]
      constructor <;> split_ifs <;> omega

/-- Witness for C4 at reference Wednesday 2025-07-09 and phrase
`next monday` (+5 days, strictly future). -/
theorem C4_witness :
    parseWeekdays 1752067800000 (strL ("next") ++ [ ' ' ] ++ strL ("monday")) =
      { date := some (startOfDay 1752067800000 +
          (if strL ("next") == strL ("next") then
            (if indexOfFrom (strL ("monday")) weekdayNames 0 - getDay 1752067800000 ≤ 0 then
              indexOfFrom (strL ("monday")) weekdayNames 0 - getDay 1752067800000 + 7
             else indexOfFrom (strL ("monday")) weekdayNames 0 - getDay 1752067800000)
           else if strL ("next") == strL ("last") then
            (if indexOfFrom (strL ("monday")) weekdayNames 0 - getDay 1752067800000 ≥ 0 then
              indexOfFrom (strL ("monday")) weekdayNames 0 - getDay 1752067800000 - 7
             else indexOfFrom (strL ("monday")) weekdayNames 0 - getDay 1752067800000)
           else if strL ("next") == strL ("this") then
            (if indexOfFrom (strL ("monday")) weekdayNames 0 - getDay 1752067800000 < 0 then
              indexOfFrom (strL ("monday")) weekdayNames 0 - getDay 1752067800000 + 7
             else indexOfFrom (strL ("monday")) weekdayNames 0 - getDay 1752067800000)
           else indexOfFrom (strL ("monday")) weekdayNames 0 - getDay 1752067800000) * 86400000),
        confidence := mkRat 17 20, matched := strL ("next") ++ [ ' ' ] ++ strL ("monday"),
        remaining := [] } :=
  (C4_weekday_tie_break 1752067800000 (strL ("next")) (strL ("monday"))
    (by decide) (by decide)).1

/-! ## Character classes and string normalization -/

theorem digit_toNat (c : Char) (h : isDigitChar c = true) :
    48 ≤ c.toNat ∧ c.toNat ≤ 57 := by
  simp only [isDigitChar, Bool.and_eq_true, decide_eq_true_eq] at h
  obtain ⟨h1, h2⟩ := h
  simp only [Char.le_def, UInt32.le_def, BitVec.le_def] at h1 h2
  exact ⟨h1, h2⟩

theorem digit_toLower (c : Char) (h : isDigitChar c = true) : Char.toLower c = c := by
  have hb := digit_toNat c h
  unfold Char.toLower
  rw [if_neg]
  omega

theorem beq_false_of_digit (c w : Char) (hc : isDigitChar c = true)
    (hw : isDigitChar w = false) : (c == w) = false := by
  cases hq : c == w
  · rfl
  · have he : c = w := by simpa using hq
    rw [he] at hc
    rw [hc] at hw
    cases hw

theorem beq_false_of_digit2 (w c : Char) (hw : isDigitChar w = false)
    (hc : isDigitChar c = true) : (w == c) = false := by
  cases hq : w == c
  · rfl
  · have he : w = c := by simpa using hq
    rw [he] at hw
    rw [hc] at hw
    cases hw

theorem digit_not_ws (c : Char) (h : isDigitChar c = true) : isWsChar c = false := by
  simp only [isWsChar]
  rw [beq_false_of_digit c ' ' h (by decide), beq_false_of_digit c '\t' h (by decide),
      beq_false_of_digit c '\n' h (by decide), beq_false_of_digit c '\r' h (by decide),
      beq_false_of_digit c '\x0b' h (by decide), beq_false_of_digit c '\x0c' h (by decide)]
  rfl

theorem trimL_eq_self (l : List Char)
    (h : ∀ c, l.head? = some c → isWsChar c = false) : trimL l = l := by
  cases l with
  | nil => rfl
  | cons a as =>
      have := h a rfl
      simp [trimL, List.dropWhile_cons, this]

theorem trimR_eq_self (l : List Char)
    (h : ∀ c, l.getLast? = some c → isWsChar c = false) : trimR l = l := by
  unfold trimR
  cases hr : l.reverse with
  | nil =>
      have : l = [] := by simpa using congrArg List.reverse hr
      simp [this]
  | cons c rest =>
      have hc : l.getLast? = some c := by
        rw [← List.head?_reverse]
        rw [hr]
        rfl
      rw [List.dropWhile_cons, h c hc]
      simp only [Bool.false_eq_true, if_false]
      rw [← hr, List.reverse_reverse]

theorem trimWs_eq_self (l : List Char)
    (h1 : ∀ c, l.head? = some c → isWsChar c = false)
    (h2 : ∀ c, l.getLast? = some c → isWsChar c = false) : trimWs l = l := by
  unfold trimWs
  rw [trimL_eq_self l h1, trimR_eq_self l h2]

theorem lowerStr_eq_self (l : List Char)
    (h : ∀ c ∈ l, Char.toLower c = c) : lowerStr l = l := by
  induction l with
  | nil => rfl
  | cons a as ih =>
      simp only [lowerStr, List.map_cons]
      rw [h a (List.mem_cons_self a as)]
      have := ih (fun c hc => h c (List.mem_cons_of_mem a hc))
      simp only [lowerStr] at this
      rw [this]

theorem dropWhile_eq_self_of_head (p : Char → Bool) (l : List Char)
    (h : ∀ c, l.head? = some c → p c = false) : l.dropWhile p = l := by
  cases l with
  | nil => rfl
  | cons a as => simp [List.dropWhile_cons, h a rfl]

theorem takeWhile_digit_run (ds rest : List Char)
    (hds : ∀ c ∈ ds, isDigitChar c = true)
    (hr : ∀ c, rest.head? = some c → isDigitChar c = false) :
    (ds ++ rest).takeWhile isDigitChar = ds := by
  induction ds with
  | nil =>
      cases rest with
      | nil => rfl
      | cons c cs => simp [List.takeWhile_cons, hr c rfl]
  | cons d t ih =>
      simp only [List.cons_append, List.takeWhile_cons,
        hds d (List.mem_cons_self d t)]
      rw [ih (fun c hc => hds c (List.mem_cons_of_mem d hc))]
      simp

/-! ## Numerals -/

theorem digitVal_chr (d : Nat) (h : d < 10) : digitVal (Char.ofNat (48 + d)) = d := by
  interval_cases d <;> decide

theorem isDigit_chr (d : Nat) (h : d < 10) : isDigitChar (Char.ofNat (48 + d)) = true := by
  interval_cases d <;> decide

theorem foldl_digits (l : List Nat) (hl : ∀ d ∈ l, d < 10) : ∀ (a : Nat),
    ((l.map (fun d => Char.ofNat (48 + d))).reverse).foldl
        (fun acc c => 10 * acc + digitVal c) a
      = a * 10 ^ l.length + Nat.ofDigits 10 l := by
  induction l with
  | nil => intro a; simp
  | cons d t ih =>
      intro a
      simp only [List.map_cons, List.reverse_cons, List.foldl_append, List.foldl_cons,
        List.foldl_nil]
      rw [ih (fun x hx => hl x (List.mem_cons_of_mem d hx)) a]
      rw [digitVal_chr d (hl d (List.mem_cons_self d t))]
      rw [Nat.ofDigits_cons, List.length_cons, pow_succ]
      ring

theorem numChars_spec (N : Nat) :
    numChars N ≠ [] ∧ (∀ c ∈ numChars N, isDigitChar c = true) ∧
    digitsVal (numChars N) = N := by
  unfold numChars
  by_cases h : N = 0
  · subst h
    exact ⟨by decide, by decide, by decide⟩
  · rw [if_neg h]
    have hd : ∀ d ∈ Nat.digits 10 N, d < 10 :=
      fun d hdm => Nat.digits_lt_base (by norm_num) hdm
    refine ⟨?_, ?_, ?_⟩
    · simp [Nat.digits_ne_nil_iff_ne_zero, h]
    · intro c hc
      simp only [List.mem_reverse, List.mem_map] at hc
      obtain ⟨d, hdm, hrfl⟩ := hc
      rw [← hrfl]
      exact isDigit_chr d (hd d hdm)
    · unfold digitsVal
      rw [foldl_digits _ hd 0]
      simp [Nat.ofDigits_digits]

/-! ## Evaluation of the offset recognizer on well-formed phrases -/

theorem kwMatch_none_of_headne (kw : List Char) (c0 : Char) (c : Char) (t l : List Char)
    (hk : kw = c0 :: t) (hne : (c0 == c) = false) :
    kwMatch kw (c :: l) = none := by
  subst hk
  unfold kwMatch
  rw [if_neg]
  intro hp
  simp only [List.isPrefixOf, Bool.and_eq_true] at hp
  rw [hne] at hp
  exact absurd hp.1 (by simp)

theorem kwAlt_none_of_head (sysNow : Int) (c : Char) (l : List Char)
    (h1 : (('t' : Char) == c) = false) (h2 : (('n' : Char) == c) = false)
    (h3 : (('y' : Char) == c) = false) :
    kwAlt sysNow (c :: l) = none := by
  unfold kwAlt
  rw [kwMatch_none_of_headne (strL ("today")) 't' c (strL ("oday")) l rfl h1,
      kwMatch_none_of_headne (strL ("now")) 'n' c (strL ("ow")) l rfl h2,
      kwMatch_none_of_headne (strL ("tomorrow")) 't' c (strL ("omorrow")) l rfl h1,
      kwMatch_none_of_headne (strL ("yesterday")) 'y' c (strL ("esterday")) l rfl h3]

theorem kwAlt_digit_none (sysNow : Int) (d : Char) (l : List Char)
    (hd : isDigitChar d = true) :
    kwAlt sysNow (d :: l) = none :=
  kwAlt_none_of_head sysNow d l
    (beq_false_of_digit2 't' d (by decide) hd)
    (beq_false_of_digit2 'n' d (by decide) hd)
    (beq_false_of_digit2 'y' d (by decide) hd)

theorem offsetCore_eval (tail : List Char → Bool) (ds rest : List Char)
    (hne : ds ≠ []) (hds : ∀ c ∈ ds, isDigitChar c = true)
    (hr : rest.head? = some ' ') :
    offsetCore tail (ds ++ rest) =
      (match unitScan tail (rest.dropWhile isWsChar) unitWords with
       | some u => some (digitsVal ds, u)
       | none => none) := by
  have hrd : ∀ c, rest.head? = some c → isDigitChar c = false := by
    intro c hc
    rw [hr] at hc
    have := Option.some.inj hc
    rw [← this]
    decide
  obtain ⟨r2, hrr⟩ : ∃ r2, rest = ' ' :: r2 := by
    cases rest with
    | nil => simp at hr
    | cons a b =>
        have : a = ' ' := by simpa using hr
        exact ⟨b, by rw [this]⟩
  have hie : ds.isEmpty = false := by
    cases ds with
    | nil => exact absurd rfl hne
    | cons a b => rfl
  unfold offsetCore
  rw [takeWhile_digit_run ds rest hds hrd]
  dsimp only
  rw [hie]
  simp only [Bool.false_eq_true, if_false]
  rw [List.drop_left]
  rw [hrr]
  rfl

theorem futureMatch_eval_digits (ds rest : List Char) (hne : ds ≠ [])
    (hds : ∀ c ∈ ds, isDigitChar c = true) (hr : rest.head? = some ' ') :
    futureMatch (ds ++ rest) =
      (match unitScan tailFutureOk (rest.dropWhile isWsChar) unitWords with
       | some u => some (digitsVal ds, u)
       | none => none) := by
  obtain ⟨d, t, hdt⟩ : ∃ d t, ds = d :: t := by
    cases ds with
    | nil => exact absurd rfl hne
    | cons a b => exact ⟨a, b, rfl⟩
  have hdd := hds d (by rw [hdt]; exact List.mem_cons_self d t)
  unfold futureMatch
  rw [if_neg]
  · exact offsetCore_eval tailFutureOk ds rest hne hds hr
  · intro hp
    rw [hdt] at hp
    simp only [List.cons_append, List.isPrefixOf, Bool.and_eq_true] at hp
    have : (('i' : Char) == d) = false := beq_false_of_digit2 'i' d (by decide) hdd
    rw [this] at hp
    exact absurd hp.1 (by simp)

theorem futureMatch_eval_in (ds rest : List Char) (hne : ds ≠ [])
    (hds : ∀ c ∈ ds, isDigitChar c = true) (p : Nat × List Char)
    (hoc : offsetCore tailFutureOk (ds ++ rest) = some p) :
    futureMatch ('i' :: 'n' :: ' ' :: (ds ++ rest)) = some p := by
  obtain ⟨d, t, hdt⟩ : ∃ d t, ds = d :: t := by
    cases ds with
    | nil => exact absurd rfl hne
    | cons a b => exact ⟨a, b, rfl⟩
  have hdd := hds d (by rw [hdt]; exact List.mem_cons_self d t)
  have hstep : (ds ++ rest).dropWhile isWsChar = ds ++ rest := by
    apply dropWhile_eq_self_of_head
    intro c hc
    rw [hdt] at hc
    simp only [List.cons_append, List.head?_cons] at hc
    have hcd := Option.some.inj hc
    rw [← hcd]
    exact digit_not_ws d hdd
  show (match offsetCore tailFutureOk ((' ' :: (ds ++ rest)).dropWhile isWsChar) with
        | some res => some res
        | none => offsetCore tailFutureOk ('i' :: 'n' :: ' ' :: (ds ++ rest))) = some p
  rw [List.dropWhile_cons]
  rw [if_pos (by decide)]
  rw [hstep, hoc]

theorem parseRelativeTime_past_eval (dflt : Int) (ds rest uStr : List Char)
    (tu : TimeUnit) (hne : ds ≠ []) (hds : ∀ c ∈ ds, isDigitChar c = true)
    (hr : rest.head? = some ' ')
    (hfut : unitScan tailFutureOk (rest.dropWhile isWsChar) unitWords = none)
    (hpast : unitScan tailPastOk (rest.dropWhile isWsChar) unitWords = some uStr)
    (hnu : normalizeTimeUnit uStr = some tu) :
    parseRelativeTime dflt (ds ++ rest) =
      some { date := some (subtract dflt (digitsVal ds : Int) tu),
             confidence := mkRat 9 10, matched := ds ++ rest, remaining := [] } := by
  have hf : futureMatch (ds ++ rest) = none := by
    rw [futureMatch_eval_digits ds rest hne hds hr, hfut]
  have hp : pastMatch (ds ++ rest) = some (digitsVal ds, uStr) := by
    unfold pastMatch
    rw [offsetCore_eval tailPastOk ds rest hne hds hr, hpast]
  unfold parseRelativeTime
  rw [hf]
  dsimp only
  rw [hp]
  dsimp only
  rw [hnu]

theorem parseRelativeTime_future_eval (dflt : Int) (ds rest uStr : List Char)
    (tu : TimeUnit) (hne : ds ≠ []) (hds : ∀ c ∈ ds, isDigitChar c = true)
    (hr : rest.head? = some ' ')
    (hfut : unitScan tailFutureOk (rest.dropWhile isWsChar) unitWords = some uStr)
    (hnu : normalizeTimeUnit uStr = some tu) :
    parseRelativeTime dflt ('i' :: 'n' :: ' ' :: (ds ++ rest)) =
      some { date := some (add dflt (digitsVal ds : Int) tu),
             confidence := mkRat 9 10,
             matched := 'i' :: 'n' :: ' ' :: (ds ++ rest), remaining := [] } := by
  have hoc : offsetCore tailFutureOk (ds ++ rest) = some (digitsVal ds, uStr) := by
    rw [offsetCore_eval tailFutureOk ds rest hne hds hr, hfut]
  have hf := futureMatch_eval_in ds rest hne hds _ hoc
  unfold parseRelativeTime
  rw [hf]
  dsimp only
  rw [hnu]

theorem norm_fix (l : List Char) (hlow : ∀ c ∈ l, Char.toLower c = c)
    (hh : ∀ c, l.head? = some c → isWsChar c = false)
    (hl : ∀ c, l.getLast? = some c → isWsChar c = false) :
    trimWs (lowerStr l) = l := by
  rw [lowerStr_eq_self l hlow]
  exact trimWs_eq_self l hh hl

theorem parseNatural_eval_of_offset (hostParse : List Char → Option Int)
    (sysNow T : Int) (strict : Bool) (input : List Char) (r : NLPParseResult)
    (hfix : trimWs (lowerStr input) = input)
    (hkw : kwAlt sysNow input = none)
    (hrt : parseRelativeTime T input = some r)
    (hsome : r.date.isSome = true) :
    parseNatural hostParse sysNow input ⟨some T, strict⟩ = r := by
  apply parseNatural_eq_of
  unfold parseNaturalE
  simp only [hfix, Option.getD_some]
  have hk : parseRelativeKeywords sysNow input = noMatch input := by
    unfold parseRelativeKeywords
    rw [hkw]
  rw [hk]
  simp only [noMatch, Option.isSome_none, Bool.false_eq_true, if_false]
  rw [hrt]
  simp only [hsome, if_true]

theorem offsetInput_norm (ds rest : List Char) (hne : ds ≠ [])
    (hds : ∀ c ∈ ds, isDigitChar c = true)
    (hlowr : ∀ c ∈ rest, Char.toLower c = c) (hrne : rest ≠ [])
    (hlast : ∀ c, rest.getLast? = some c → isWsChar c = false) :
    trimWs (lowerStr (ds ++ rest)) = ds ++ rest := by
  obtain ⟨d, t, hdt⟩ : ∃ d t, ds = d :: t := by
    cases ds with
    | nil => exact absurd rfl hne
    | cons a b => exact ⟨a, b, rfl⟩
  apply norm_fix
  · intro c hc
    rcases List.mem_append.mp hc with h | h
    · exact digit_toLower c (hds c h)
    · exact hlowr c h
  · intro c hc
    rw [hdt] at hc
    simp only [List.cons_append, List.head?_cons] at hc
    rw [← Option.some.inj hc]
    exact digit_not_ws d (hds d (by rw [hdt]; exact List.mem_cons_self d t))
  · intro c hc
    rw [List.getLast?_append_of_ne_nil ds hrne] at hc
    exact hlast c hc

theorem offsetInputIn_norm (ds rest : List Char)
    (hds : ∀ c ∈ ds, isDigitChar c = true)
    (hlowr : ∀ c ∈ rest, Char.toLower c = c) (hrne : rest ≠ [])
    (hlast : ∀ c, rest.getLast? = some c → isWsChar c = false) :
    trimWs (lowerStr ('i' :: 'n' :: ' ' :: (ds ++ rest))) =
      'i' :: 'n' :: ' ' :: (ds ++ rest) := by
  apply norm_fix
  · intro c hc
    simp only [List.mem_cons] at hc
    rcases hc with rfl | rfl | rfl | hc
    · decide
    · decide
    · decide
    · rcases List.mem_append.mp hc with h | h
      · exact digit_toLower c (hds c h)
      · exact hlowr c h
  · intro c hc
    simp only [List.head?_cons] at hc
    rw [← Option.some.inj hc]
    decide
  · intro c hc
    have hsplit : ('i' :: 'n' :: ' ' :: (ds ++ rest)) = (('i' :: 'n' :: ' ' :: ds) ++ rest) := by
      simp
    rw [hsplit, List.getLast?_append_of_ne_nil _ hrne] at hc
    exact hlast c hc

theorem kwAlt_offset_none (sysNow : Int) (ds rest : List Char) (hne : ds ≠ [])
    (hds : ∀ c ∈ ds, isDigitChar c = true) :
    kwAlt sysNow (ds ++ rest) = none := by
  obtain ⟨d, t, hdt⟩ : ∃ d t, ds = d :: t := by
    cases ds with
    | nil => exact absurd rfl hne
    | cons a b => exact ⟨a, b, rfl⟩
  rw [hdt, List.cons_append]
  exact kwAlt_digit_none sysNow d (t ++ rest)
    (hds d (by rw [hdt]; exact List.mem_cons_self d t))

theorem parseNatural_past_eval (hostParse : List Char → Option Int)
    (sysNow T : Int) (strict : Bool) (ds rest uStr : List Char) (tu : TimeUnit)
    (hne : ds ≠ []) (hds : ∀ c ∈ ds, isDigitChar c = true)
    (hr : rest.head? = some ' ')
    (hlowr : ∀ c ∈ rest, Char.toLower c = c)
    (hlast : ∀ c, rest.getLast? = some c → isWsChar c = false)
    (hfut : unitScan tailFutureOk (rest.dropWhile isWsChar) unitWords = none)
    (hpast : unitScan tailPastOk (rest.dropWhile isWsChar) unitWords = some uStr)
    (hnu : normalizeTimeUnit uStr = some tu) :
    parseNatural hostParse sysNow (ds ++ rest) ⟨some T, strict⟩ =
      { date := some (subtract T (digitsVal ds : Int) tu),
        confidence := mkRat 9 10, matched := ds ++ rest, remaining := [] } := by
  have hrne : rest ≠ [] := by
    intro h
    rw [h] at hr
    simp at hr
  apply parseNatural_eval_of_offset
  · exact offsetInput_norm ds rest hne hds hlowr hrne hlast
  · exact kwAlt_offset_none sysNow ds rest hne hds
  · exact parseRelativeTime_past_eval T ds rest uStr tu hne hds hr hfut hpast hnu
  · rfl

theorem parseNatural_future_eval (hostParse : List Char → Option Int)
    (sysNow T : Int) (strict : Bool) (ds rest uStr : List Char) (tu : TimeUnit)
    (hne : ds ≠ []) (hds : ∀ c ∈ ds, isDigitChar c = true)
    (hr : rest.head? = some ' ')
    (hlowr : ∀ c ∈ rest, Char.toLower c = c)
    (hlast : ∀ c, rest.getLast? = some c → isWsChar c = false)
    (hfut : unitScan tailFutureOk (rest.dropWhile isWsChar) unitWords = some uStr)
    (hnu : normalizeTimeUnit uStr = some tu) :
    parseNatural hostParse sysNow ('i' :: 'n' :: ' ' :: (ds ++ rest)) ⟨some T, strict⟩ =
      { date := some (add T (digitsVal ds : Int) tu),
        confidence := mkRat 9 10,
        matched := 'i' :: 'n' :: ' ' :: (ds ++ rest), remaining := [] } := by
  have hrne : rest ≠ [] := by
    intro h
    rw [h] at hr
    simp at hr
  apply parseNatural_eval_of_offset
  · exact offsetInputIn_norm ds rest hds hlowr hrne hlast
  · exact kwAlt_none_of_head sysNow 'i' (ds ++ rest) (by decide) (by decide) (by decide)
  · exact parseRelativeTime_future_eval T ds rest uStr tu hne hds hr hfut hnu
  · rfl

theorem lastNotWs_of_check (l : List Char)
    (h : (match l.getLast? with | some c => !isWsChar c | none => true) = true) :
    ∀ c, l.getLast? = some c → isWsChar c = false := by
  intro c hc
  rw [hc] at h
  simpa using h

theorem lower_rest_past (u : TimeUnit) (plural : Bool) :
    ∀ c ∈ ([ ' ' ] ++ unitSpelling u plural ++ strL (" ago")), Char.toLower c = c := by
  cases u <;> cases plural <;> decide

theorem last_rest_past (u : TimeUnit) (plural : Bool) :
    ∀ c, (([ ' ' ] ++ unitSpelling u plural ++ strL (" ago"))).getLast? = some c →
      isWsChar c = false := by
  apply lastNotWs_of_check
  cases u <;> cases plural <;> decide

theorem fut_scan_past_none (u : TimeUnit) (plural : Bool) :
    unitScan tailFutureOk
        ((([ ' ' ] ++ unitSpelling u plural ++ strL (" ago"))).dropWhile isWsChar)
        unitWords = none := by
  cases u <;> cases plural <;> decide

theorem past_scan_past (u : TimeUnit) (plural : Bool) :
    unitScan tailPastOk
        ((([ ' ' ] ++ unitSpelling u plural ++ strL (" ago"))).dropWhile isWsChar)
        unitWords = some (unitSpelling u plural) := by
  cases u <;> cases plural <;> decide

theorem norm_spelling (u : TimeUnit) (plural : Bool) :
    normalizeTimeUnit (unitSpelling u plural) = some u := by
  cases u <;> cases plural <;> decide

theorem lower_rest_future (u : TimeUnit) (plural : Bool) (sfx : Fin 3) :
    ∀ c ∈ ([ ' ' ] ++ unitSpelling u plural ++ futureSfx sfx), Char.toLower c = c := by
  cases u <;> cases plural <;> fin_cases sfx <;> decide

theorem last_rest_future (u : TimeUnit) (plural : Bool) (sfx : Fin 3) :
    ∀ c, (([ ' ' ] ++ unitSpelling u plural ++ futureSfx sfx)).getLast? = some c →
      isWsChar c = false := by
  apply lastNotWs_of_check
  cases u <;> cases plural <;> fin_cases sfx <;> decide

theorem fut_scan_future (u : TimeUnit) (plural : Bool) (sfx : Fin 3) :
    unitScan tailFutureOk
        ((([ ' ' ] ++ unitSpelling u plural ++ futureSfx sfx)).dropWhile isWsChar)
        unitWords = some (unitSpelling u plural) := by
  cases u <;> cases plural <;> fin_cases sfx <;> decide

/-- **C5.** For every reference instant `T`, every `N : Nat` (written in
decimal), every unit in singular or plural spelling and every admissible
future suffix: `"N <unit> ago"` resolves to `subtract T N u`, `"in N <unit>
[from now|ahead]"` resolves to `add T N u`, both at confidence 0.9 with the
whole input matched; and at `N = 0` both additions are the identity. -/
theorem C5_relative_offsets (hostParse : List Char → Option Int)
    (sysNow T : Int) (strict : Bool) (N : Nat) (u : TimeUnit) (plural : Bool)
    (sfx : Fin 3) :
    parseNatural hostParse sysNow
        (numChars N ++ ([ ' ' ] ++ unitSpelling u plural ++ strL (" ago")))
        ⟨some T, strict⟩ =
      { date := some (subtract T (N : Int) u), confidence := mkRat 9 10,
        matched := numChars N ++ ([ ' ' ] ++ unitSpelling u plural ++ strL (" ago")),
        remaining := [] } ∧
    parseNatural hostParse sysNow
        ('i' :: 'n' :: ' ' ::
          (numChars N ++ ([ ' ' ] ++ unitSpelling u plural ++ futureSfx sfx)))
        ⟨some T, strict⟩ =
      { date := some (add T (N : Int) u), confidence := mkRat 9 10,
        matched := 'i' :: 'n' :: ' ' ::
          (numChars N ++ ([ ' ' ] ++ unitSpelling u plural ++ futureSfx sfx)),
        remaining := [] } ∧
    add T 0 u = T ∧ subtract T 0 u = T := by
  obtain ⟨hne, hds, hval⟩ := numChars_spec N
  have hNcast : ((N : Nat) : Int) = ((digitsVal (numChars N) : Nat) : Int) := by
    rw [hval]
  refine ⟨?_, ?_, ?_, ?_⟩
  · rw [hNcast]
    exact parseNatural_past_eval hostParse sysNow T strict (numChars N)
      ([ ' ' ] ++ unitSpelling u plural ++ strL (" ago")) (unitSpelling u plural) u
      hne hds rfl (lower_rest_past u plural) (last_rest_past u plural)
      (fut_scan_past_none u plural) (past_scan_past u plural) (norm_spelling u plural)
  · rw [hNcast]
    exact parseNatural_future_eval hostParse sysNow T strict (numChars N)
      ([ ' ' ] ++ unitSpelling u plural ++ futureSfx sfx) (unitSpelling u plural) u
      hne hds rfl (lower_rest_future u plural sfx) (last_rest_future u plural sfx)
      (fut_scan_future u plural sfx) (norm_spelling u plural)
  · exact add_zero T u
  · show add T (-0) u = T
    rw [neg_zero]
    exact add_zero T u

/-! ## Round-trip reconstruction (C9) -/

theorem headNotWs_of_check (l : List Char)
    (h : (match l.head? with | some c => !isWsChar c | none => true) = true) :
    ∀ c, l.head? = some c → isWsChar c = false := by
  intro c hc
  rw [hc] at h
  simpa using h

theorem head_dropWhile (p : Char → Bool) (l : List Char) :
    ∀ c, (l.dropWhile p).head? = some c → p c = false := by
  induction l with
  | nil =>
      intro c hc
      simp at hc
  | cons a t ih =>
      intro c hc
      rw [List.dropWhile_cons] at hc
      by_cases hp : p a = true
      · rw [if_pos hp] at hc
        exact ih c hc
      · rw [if_neg hp] at hc
        simp only [List.head?_cons] at hc
        rw [← Option.some.inj hc]
        cases hpa : p a with
        | false => rfl
        | true => exact absurd hpa hp

theorem dropWhile_all (p : Char → Bool) (a b : List Char)
    (h : ∀ c ∈ a, p c = true) : (a ++ b).dropWhile p = b.dropWhile p := by
  induction a with
  | nil => rfl
  | cons x t ih =>
      rw [List.cons_append, List.dropWhile_cons, if_pos (h x (List.mem_cons_self x t))]
      exact ih (fun c hc => h c (List.mem_cons_of_mem x hc))

theorem suffix_last (l1 l2 : List Char) (h : l1 <:+ l2) :
    ∀ c, l1.getLast? = some c → l2.getLast? = some c := by
  intro c hc
  obtain ⟨p, hp⟩ := h
  have hne : l1 ≠ [] := by
    intro he
    rw [he] at hc
    simp at hc
  rw [← hp, List.getLast?_append_of_ne_nil p hne]
  exact hc

theorem trimWs_last_nonWs (l : List Char) :
    ∀ c, (trimWs l).getLast? = some c → isWsChar c = false := by
  intro c hc
  unfold trimWs trimR at hc
  rw [List.getLast?_reverse] at hc
  exact head_dropWhile isWsChar _ c hc

theorem trimWs_kw_ws (kw wsr : List Char) (hne : kw ≠ [])
    (hkh : ∀ c, kw.head? = some c → isWsChar c = false)
    (hkl : ∀ c, kw.getLast? = some c → isWsChar c = false)
    (hw : ∀ c ∈ wsr, isWsChar c = true) : trimWs (kw ++ wsr) = kw := by
  obtain ⟨k, t, hkt⟩ : ∃ k t, kw = k :: t := by
    cases kw with
    | nil => exact absurd rfl hne
    | cons a b => exact ⟨a, b, rfl⟩
  unfold trimWs
  have h1 : trimL (kw ++ wsr) = kw ++ wsr := by
    apply trimL_eq_self
    intro c hc
    rw [hkt] at hc
    simp only [List.cons_append, List.head?_cons] at hc
    rw [← Option.some.inj hc]
    exact hkh k (by rw [hkt]; rfl)
  rw [h1]
  unfold trimR
  rw [List.reverse_append]
  rw [dropWhile_all isWsChar wsr.reverse kw.reverse
    (fun c hc => hw c (List.mem_reverse.mp hc))]
  rw [dropWhile_eq_self_of_head isWsChar kw.reverse
    (fun c hc => hkl c (by rw [← List.head?_reverse]; exact hc))]
  rw [List.reverse_reverse]

theorem wsr_nil_of_last (kw wsr : List Char)
    (hl : ∀ c, (kw ++ wsr).getLast? = some c → isWsChar c = false)
    (hw : ∀ c ∈ wsr, isWsChar c = true) : wsr = [] := by
  cases hwsr : wsr.getLast? with
  | none => exact List.getLast?_eq_none_iff.mp hwsr
  | some c =>
      have hmem := List.mem_of_getLast?_eq_some hwsr
      have h1 : (kw ++ wsr).getLast? = some c := by
        rw [List.getLast?_append_of_ne_nil kw
          (by intro he; rw [he] at hwsr; simp at hwsr)]
        exact hwsr
      exact absurd (hw c hmem) (by rw [hl c h1]; simp)

theorem kwMatch_structure (kw input m0 : List Char) (h : kwMatch kw input = some m0) :
    ∃ wsr rest2, (∀ c ∈ wsr, isWsChar c = true) ∧ m0 = kw ++ wsr ∧
      input = m0 ++ rest2 ∧ (∀ c, rest2.head? = some c → isWsChar c = false) := by
  unfold kwMatch at h
  by_cases hp : kw.isPrefixOf input = true
  · rw [if_pos hp] at h
    obtain ⟨rest, hrest⟩ : kw <+: input := List.isPrefixOf_iff_prefix.mp hp
    have hdrop : input.drop kw.length = rest := by
      rw [← hrest, List.drop_left]
    dsimp only at h
    rw [hdrop] at h
    cases rest with
    | nil =>
        rw [List.append_nil] at hrest
        refine ⟨[], [], ?_, ?_, ?_, ?_⟩
        · intro c hc
          simp at hc
        · rw [List.append_nil]
          exact (Option.some.inj h).symm
        · rw [List.append_nil, ← Option.some.inj h]
          exact hrest.symm
        · intro c hc
          simp at hc
    | cons c0 r0 =>
        dsimp only at h
        by_cases hw0 : isWsChar c0 = true
        · rw [if_pos hw0] at h
          refine ⟨(c0 :: r0).takeWhile isWsChar, (c0 :: r0).dropWhile isWsChar,
            ?_, (Option.some.inj h).symm, ?_, ?_⟩
          · intro c hc
            exact List.mem_takeWhile_imp hc
          · rw [← Option.some.inj h, List.append_assoc, List.takeWhile_append_dropWhile]
            exact hrest.symm
          · exact head_dropWhile isWsChar (c0 :: r0)
        · rw [if_neg hw0] at h
          simp at h
  · rw [if_neg hp] at h
    simp at h

theorem kwAlt_structure (sysNow : Int) (input m0 : List Char) (d : Int)
    (h : kwAlt sysNow input = some (m0, d)) :
    kwMatch (strL ("today")) input = some m0 ∨
    kwMatch (strL ("now")) input = some m0 ∨
    kwMatch (strL ("tomorrow")) input = some m0 ∨
    kwMatch (strL ("yesterday")) input = some m0 := by
  unfold kwAlt at h
  cases h1 : kwMatch (strL ("today")) input with
  | some m =>
      rw [h1] at h
      dsimp only at h
      left
      injection h with hp2
      injection hp2 with ha hb
      rw [ha]
  | none =>
      rw [h1] at h
      dsimp only at h
      cases h2 : kwMatch (strL ("now")) input with
      | some m =>
          rw [h2] at h
          dsimp only at h
          right; left
          injection h with hp2
          injection hp2 with ha hb
          rw [ha]
      | none =>
          rw [h2] at h
          dsimp only at h
          cases h3 : kwMatch (strL ("tomorrow")) input with
          | some m =>
              rw [h3] at h
              dsimp only at h
              right; right; left
              injection h with hp2
              injection hp2 with ha hb
              rw [ha]
          | none =>
              rw [h3] at h
              dsimp only at h
              cases h4 : kwMatch (strL ("yesterday")) input with
              | some m =>
                  rw [h4] at h
                  dsimp only at h
                  right; right; right
                  injection h with hp2
                  injection hp2 with ha hb
                  rw [ha]
              | none =>
                  rw [h4] at h
                  simp at h

theorem parseRelativeKeywords_recon (sysNow : Int) (norm m0 : List Char) (d : Int)
    (hl : ∀ c, norm.getLast? = some c → isWsChar c = false)
    (hk : kwAlt sysNow norm = some (m0, d)) :
    ∃ w, (∀ c ∈ w, isWsChar c = true) ∧
      trimWs m0 ++ (w ++ trimWs (norm.drop m0.length)) = norm ∧
      (trimWs (norm.drop m0.length) = [] → w = []) := by
  obtain ⟨kw, hkwcases, hm⟩ :
      ∃ kw, (kw = strL ("today") ∨ kw = strL ("now") ∨ kw = strL ("tomorrow") ∨
        kw = strL ("yesterday")) ∧ kwMatch kw norm = some m0 := by
    rcases kwAlt_structure sysNow norm m0 d hk with h | h | h | h
    · exact ⟨_, Or.inl rfl, h⟩
    · exact ⟨_, Or.inr (Or.inl rfl), h⟩
    · exact ⟨_, Or.inr (Or.inr (Or.inl rfl)), h⟩
    · exact ⟨_, Or.inr (Or.inr (Or.inr rfl)), h⟩
  obtain ⟨wsr, rest2, hws, hm0, hin, hr2h⟩ := kwMatch_structure kw norm m0 hm
  have hkne : kw ≠ [] := by
    rcases hkwcases with rfl | rfl | rfl | rfl <;> decide
  have hkh : ∀ c, kw.head? = some c → isWsChar c = false := by
    rcases hkwcases with rfl | rfl | rfl | rfl <;> exact headNotWs_of_check _ (by decide)
  have hkl : ∀ c, kw.getLast? = some c → isWsChar c = false := by
    rcases hkwcases with rfl | rfl | rfl | rfl <;> exact lastNotWs_of_check _ (by decide)
  have htm : trimWs m0 = kw := by
    rw [hm0]
    exact trimWs_kw_ws kw wsr hkne hkh hkl hws
  have hdrop : norm.drop m0.length = rest2 := by
    rw [hin, List.drop_left]
  have hr2l : ∀ c, rest2.getLast? = some c → isWsChar c = false := by
    intro c hc
    exact hl c (suffix_last rest2 norm ⟨m0, hin.symm⟩ c hc)
  have htr2 : trimWs (norm.drop m0.length) = rest2 := by
    rw [hdrop]
    exact trimWs_eq_self rest2 hr2h hr2l
  refine ⟨wsr, hws, ?_, ?_⟩
  · rw [htm, htr2, hin, hm0, List.append_assoc]
  · intro hre
    rw [htr2] at hre
    subst hre
    refine wsr_nil_of_last kw wsr ?_ hws
    intro c hc
    apply hl c
    rw [hin, hm0]
    simpa using hc

/-- **C9.** Counterexample: on input `"tomorrow  x"` (two spaces) the keyword
recognizer succeeds (confidence 0.95 > 0) with matched `"tomorrow"` and
remaining `"x"`, but no single separator character can reconstruct the
normalized input `"tomorrow  x"`: the claimed round-trip
`matched + separator + remaining` is one character short. -/
theorem C9_counterexample :
    0 < (parseNatural (fun _ => none) 0 (strL ("tomorrow  x")) ⟨some 0, false⟩).confidence ∧
    (parseNatural (fun _ => none) 0 (strL ("tomorrow  x")) ⟨some 0, false⟩).remaining ≠ [] ∧
    ∀ c : Char,
      (parseNatural (fun _ => none) 0 (strL ("tomorrow  x")) ⟨some 0, false⟩).matched ++
        (c :: (parseNatural (fun _ => none) 0 (strL ("tomorrow  x")) ⟨some 0, false⟩).remaining)
        ≠ trimWs (lowerStr (strL ("tomorrow  x"))) := by
  refine ⟨by decide, by decide, ?_⟩
  intro c hc
  have h1 : (parseNatural (fun _ => none) 0 (strL ("tomorrow  x")) ⟨some 0, false⟩).matched =
      strL ("tomorrow") := by decide
  have h2 : (parseNatural (fun _ => none) 0 (strL ("tomorrow  x")) ⟨some 0, false⟩).remaining =
      [ 'x' ] := by decide
  rw [h1, h2] at hc
  have hlen := congrArg List.length hc
  simp only [List.length_append, List.length_cons, List.length_nil,
    show (strL ("tomorrow")).length = 8 from by decide,
    show (trimWs (lowerStr (strL ("tomorrow  x")))).length = 11 from by decide] at hlen
  omega

/-- **C9 (amended).** For every successful non-fallback parse the normalized
input is `matched ++ w ++ remaining` for some (possibly multi-character,
possibly empty) whitespace run `w`, with `w` empty whenever `remaining` is
empty; a fallback success (confidence exactly 1/2) instead reports the whole
original input as matched with empty remaining. -/
theorem C9_amended (hostParse : List Char → Option Int) (sysNow : Int)
    (input : List Char) (opts : ParseOptions) :
    (mkRat 1 2 < (parseNatural hostParse sysNow input opts).confidence →
      ∃ w, (∀ c ∈ w, isWsChar c = true) ∧
        (parseNatural hostParse sysNow input opts).matched ++
          (w ++ (parseNatural hostParse sysNow input opts).remaining) =
          trimWs (lowerStr input) ∧
        ((parseNatural hostParse sysNow input opts).remaining = [] → w = [])) ∧
    ((parseNatural hostParse sysNow input opts).confidence = mkRat 1 2 →
      (parseNatural hostParse sysNow input opts).matched = input ∧
      (parseNatural hostParse sysNow input opts).remaining = []) := by
  by_cases h1 : (parseRelativeKeywords sysNow (trimWs (lowerStr input))).date.isSome
  · have hE : parseNaturalE hostParse sysNow input opts =
        some (parseRelativeKeywords sysNow (trimWs (lowerStr input))) := by
      unfold parseNaturalE
      simp [h1]
    rw [parseNatural_eq_of _ _ _ _ _ hE]
    cases hk : kwAlt sysNow (trimWs (lowerStr input)) with
    | none =>
        exfalso
        unfold parseRelativeKeywords at h1
        rw [hk] at h1
        simp [noMatch] at h1
    | some p =>
        obtain ⟨m0, d⟩ := p
        have hmr : parseRelativeKeywords sysNow (trimWs (lowerStr input)) =
            { date := some d, confidence := mkRat 19 20, matched := trimWs m0,
              remaining := trimWs ((trimWs (lowerStr input)).drop m0.length) } := by
          unfold parseRelativeKeywords
          rw [hk]
        rw [hmr]
        constructor
        · intro _
          exact parseRelativeKeywords_recon sysNow _ m0 d
            (trimWs_last_nonWs (lowerStr input)) hk
        · intro hcon
          dsimp only at hcon
          exact absurd hcon (by decide)
  · cases hpr : parseRelativeTime (opts.defaultDate.getD sysNow) (trimWs (lowerStr input)) with
    | none => exact absurd hpr (parseRelativeTime_ne_none _ _)
    | some r2 =>
        by_cases h2 : r2.date.isSome
        · have hE : parseNaturalE hostParse sysNow input opts = some r2 := by
            unfold parseNaturalE
            simp [h1, hpr, h2]
          rw [parseNatural_eq_of _ _ _ _ _ hE]
          rcases parseRelativeTime_shape _ _ r2 hpr with hs | hs
          · rw [hs] at h2
            simp [noMatch] at h2
          · refine ⟨fun _ => ⟨[], ?_, ?_, fun _ => rfl⟩, fun hcon => ?_⟩
            · intro c hc
              simp at hc
            · rw [hs.2.2.1, hs.2.2.2]
              simp
            · rw [hs.2.1] at hcon
              exact absurd hcon (by decide)
        · by_cases h3 : (parseWeekdays (opts.defaultDate.getD sysNow)
              (trimWs (lowerStr input))).date.isSome
          · have hE : parseNaturalE hostParse sysNow input opts =
                some (parseWeekdays (opts.defaultDate.getD sysNow) (trimWs (lowerStr input))) := by
              unfold parseNaturalE
              simp [h1, hpr, h2, h3]
            rw [parseNatural_eq_of _ _ _ _ _ hE]
            rcases parseWeekdays_shape (opts.defaultDate.getD sysNow)
                (trimWs (lowerStr input)) with hs | hs
            · rw [hs] at h3
              simp [noMatch] at h3
            · refine ⟨fun _ => ⟨[], ?_, ?_, fun _ => rfl⟩, fun hcon => ?_⟩
              · intro c hc
                simp at hc
              · rw [hs.2.2.1, hs.2.2.2]
                simp
              · rw [hs.2.1] at hcon
                exact absurd hcon (by decide)
          · by_cases h4 : (parseMonthReferences (opts.defaultDate.getD sysNow)
                (trimWs (lowerStr input))).date.isSome
            · have hE : parseNaturalE hostParse sysNow input opts =
                  some (parseMonthReferences (opts.defaultDate.getD sysNow)
                    (trimWs (lowerStr input))) := by
                unfold parseNaturalE
                simp [h1, hpr, h2, h3, h4]
              rw [parseNatural_eq_of _ _ _ _ _ hE]
              rcases parseMonthReferences_shape (opts.defaultDate.getD sysNow)
                  (trimWs (lowerStr input)) with hs | hs
              · rw [hs] at h4
                simp [noMatch] at h4
              · refine ⟨fun _ => ⟨[], ?_, ?_, fun _ => rfl⟩, fun hcon => ?_⟩
                · intro c hc
                  simp at hc
                · rw [hs.2.2.1, hs.2.2.2]
                  simp
                · rw [hs.2.1] at hcon
                  exact absurd hcon (by decide)
            · by_cases h5 : (parseTimeExpressions (opts.defaultDate.getD sysNow)
                  (trimWs (lowerStr input))).date.isSome
              · have hE : parseNaturalE hostParse sysNow input opts =
                    some (parseTimeExpressions (opts.defaultDate.getD sysNow)
                      (trimWs (lowerStr input))) := by
                  unfold parseNaturalE
                  simp [h1, hpr, h2, h3, h4, h5]
                rw [parseNatural_eq_of _ _ _ _ _ hE]
                rcases parseTimeExpressions_shape (opts.defaultDate.getD sysNow)
                    (trimWs (lowerStr input)) with hs | hs
                · rw [hs] at h5
                  simp [noMatch] at h5
                · refine ⟨fun _ => ⟨[], ?_, ?_, fun _ => rfl⟩, fun hcon => ?_⟩
                  · intro c hc
                    simp at hc
                  · rw [hs.2.2.1, hs.2.2.2]
                    simp
                  · rw [hs.2.1] at hcon
                    exact absurd hcon (by decide)
              · by_cases h6 : opts.strict
                · have hE : parseNaturalE hostParse sysNow input opts =
                      some { date := none, confidence := 0, matched := [],
                             remaining := trimWs (lowerStr input) } := by
                    unfold parseNaturalE
                    simp [h1, hpr, h2, h3, h4, h5, h6]
                  rw [parseNatural_eq_of _ _ _ _ _ hE]
                  constructor
                  · intro hcon
                    dsimp only at hcon
                    exact absurd hcon (by decide)
                  · intro hcon
                    dsimp only at hcon
                    exact absurd hcon (by decide)
                · cases hh : hostParse input with
                  | some dd =>
                      have hE : parseNaturalE hostParse sysNow input opts =
                          some { date := some dd, confidence := mkRat 1 2,
                                 matched := input, remaining := [] } := by
                        unfold parseNaturalE
                        simp [h1, hpr, h2, h3, h4, h5, h6, hh]
                      rw [parseNatural_eq_of _ _ _ _ _ hE]
                      refine ⟨?_, fun _ => ⟨rfl, rfl⟩⟩
                      intro hcon
                      dsimp only at hcon
                      exact absurd hcon (by decide)
                  | none =>
                      have hE : parseNaturalE hostParse sysNow input opts =
                          some { date := none, confidence := 0, matched := [],
                                 remaining := trimWs (lowerStr input) } := by
                        unfold parseNaturalE
                        simp [h1, hpr, h2, h3, h4, h5, h6, hh]
                      rw [parseNatural_eq_of _ _ _ _ _ hE]
                      constructor
                      · intro hcon
                        dsimp only at hcon
                        exact absurd hcon (by decide)
                      · intro hcon
                        dsimp only at hcon
                        exact absurd hcon (by decide)

/-- Witness for the amended C9: on `"tomorrow boom"` the round-trip holds. -/
theorem C9_amended_witness :
    ∃ w, (∀ c ∈ w, isWsChar c = true) ∧
      (parseNatural (fun _ => none) 0 (strL ("tomorrow boom")) ⟨some 0, false⟩).matched ++
        (w ++ (parseNatural (fun _ => none) 0 (strL ("tomorrow boom")) ⟨some 0, false⟩).remaining)
        = trimWs (lowerStr (strL ("tomorrow boom"))) ∧
      ((parseNatural (fun _ => none) 0 (strL ("tomorrow boom")) ⟨some 0, false⟩).remaining = []
        → w = []) :=
  (C9_amended (fun _ => none) 0 (strL ("tomorrow boom")) ⟨some 0, false⟩).1 (by decide)

end ChronoFns
